import Mathlib

/-!
# Verification of the `fontTools.misc.bezierTools` geometry kernel

A shallow embedding, over the real numbers, of the 2D Bézier geometry kernel
in `Lib/fontTools/misc/bezierTools.py`: polynomial solvers, basis conversions,
point evaluators, splitters, bounding boxes, arc length and the intersection
engine.  Python floats are modelled as real numbers; code that can raise an
exception is modelled in an `Except` monad; the unbounded recursion of the
curve/curve intersection search is modelled with an explicit fuel parameter.

Helpers that the kernel imports from sibling modules (`calcBounds`, `sectRect`,
`rectArea` from `arrayTools`; `Offset`/`Identity` from `transform`) are not part
of the kernel's sources and are modelled from the specification; each such
definition is marked `Modelled from the spec:` in its doc comment.
-/

open scoped Classical

namespace BezierTools

noncomputable section

/-- A 2D point, the model of a Python coordinate pair of floats. -/
abbrev Point : Type := ℝ × ℝ

/-- `epsilon = 1e-10`, the near-degeneracy threshold of the solvers. -/
def epsilon : ℝ := 1e-10

/-- Rounding to `epsilonDigits = 6` decimal digits, the model of Python's
`round(x, 6)` used by `solveCubic`. -/
def round6 (x : ℝ) : ℝ := (round (x * 1000000) : ℤ) / 1000000

/-- Python's `math.isclose(a, b)` with the default tolerances
`rel_tol = 1e-9`, `abs_tol = 0.0`. -/
def isclose (a b : ℝ) : Prop := |a - b| ≤ max (1e-9 * max |a| |b|) 0

/-- The model of exceptions raised by the Python code. `fuelOut` is not a
Python exception: it marks exhaustion of the explicit recursion fuel used to
model the unbounded recursion of the curve/curve intersection search. -/
inductive PyErr : Type
  | invalidDegree : PyErr  -- ValueError for a segment of unsupported arity
  | typeError     : PyErr  -- TypeError (wrong arity call / unpacking None)
  | nameError     : PyErr  -- NameError (reference to an undefined variable)
  | indexError    : PyErr  -- IndexError (indexing into an empty sequence)
  | fuelOut       : PyErr  -- recursion fuel exhausted (modelling artefact)
  deriving DecidableEq

/-! ## Equation solvers (`solveQuadratic`, `solveCubic`) -/

/-- `solveQuadratic(a, b, c)`: real roots of `a*x*x + b*x + c = 0`,
with the `epsilon` degeneracy handling of the source. -/
def solveQuadratic (a b c : ℝ) : List ℝ :=
  if |a| < epsilon then
    if |b| < epsilon then []
    else [-c / b]
  else
    if 0 ≤ b * b - 4.0 * a * c then
      [(-b + Real.sqrt (b * b - 4.0 * a * c)) / 2.0 / a,
       (-b - Real.sqrt (b * b - 4.0 * a * c)) / 2.0 / a]
    else []

/-- `a1 = b/a` in `solveCubic`. -/
def cubicA1 (a b : ℝ) : ℝ := b / a

/-- `a2 = c/a` in `solveCubic`. -/
def cubicA2 (a c : ℝ) : ℝ := c / a

/-- `a3 = d/a` in `solveCubic`. -/
def cubicA3 (a d : ℝ) : ℝ := d / a

/-- `Q = (a1*a1 - 3.0*a2)/9.0` in `solveCubic`. -/
def cubicQ (a b c : ℝ) : ℝ :=
  (cubicA1 a b * cubicA1 a b - 3.0 * cubicA2 a c) / 9.0

/-- `R = (2.0*a1*a1*a1 - 9.0*a1*a2 + 27.0*a3)/54.0` in `solveCubic`. -/
def cubicR (a b c d : ℝ) : ℝ :=
  (2.0 * cubicA1 a b * cubicA1 a b * cubicA1 a b -
      9.0 * cubicA1 a b * cubicA2 a c + 27.0 * cubicA3 a d) / 54.0

/-- `R2 = 0 if R2 < epsilon else R2` in `solveCubic` (the snapped `R*R`). -/
def cubicR2snap (a b c d : ℝ) : ℝ :=
  if cubicR a b c d * cubicR a b c d < epsilon then 0
  else cubicR a b c d * cubicR a b c d

/-- `Q3 = 0 if abs(Q3) < epsilon else Q3` in `solveCubic` (the snapped `Q*Q*Q`). -/
def cubicQ3snap (a b c : ℝ) : ℝ :=
  if |cubicQ a b c * cubicQ a b c * cubicQ a b c| < epsilon then 0
  else cubicQ a b c * cubicQ a b c * cubicQ a b c

/-- `theta = acos(max(min(R/sqrt(Q3), 1.0), -1.0))` in `solveCubic`. -/
def cubicTheta (a b c d : ℝ) : ℝ :=
  Real.arccos (max (min (cubicR a b c d / Real.sqrt (cubicQ3snap a b c)) 1.0) (-1.0))

/-- `x0 = rQ2*cos(theta/3.0) - a1_3` in `solveCubic` (with `rQ2 = -2.0*sqrt(Q)`). -/
def cubicX0 (a b c d : ℝ) : ℝ :=
  -2.0 * Real.sqrt (cubicQ a b c) * Real.cos (cubicTheta a b c d / 3.0) -
    cubicA1 a b / 3.0

/-- `x1 = rQ2*cos((theta+2.0*pi)/3.0) - a1_3` in `solveCubic`. -/
def cubicX1 (a b c d : ℝ) : ℝ :=
  -2.0 * Real.sqrt (cubicQ a b c) *
      Real.cos ((cubicTheta a b c d + 2.0 * Real.pi) / 3.0) - cubicA1 a b / 3.0

/-- `x2 = rQ2*cos((theta+4.0*pi)/3.0) - a1_3` in `solveCubic`. -/
def cubicX2 (a b c d : ℝ) : ℝ :=
  -2.0 * Real.sqrt (cubicQ a b c) *
      Real.cos ((cubicTheta a b c d + 4.0 * Real.pi) / 3.0) - cubicA1 a b / 3.0

/-- Python's `sorted([x0, x1, x2])`, as a three-element sorting network. -/
def sort3 (x y z : ℝ) : ℝ × ℝ × ℝ :=
  if x ≤ y then
    if y ≤ z then (x, y, z)
    else if x ≤ z then (x, z, y) else (z, x, y)
  else
    if x ≤ z then (y, x, z)
    else if y ≤ z then (y, z, x) else (z, y, x)

/-- The merge-and-round step of `solveCubic`'s three-real-roots branch: roots
within `epsilon` of each other are merged to their average, and everything is
rounded to 6 decimal digits. -/
def mergeRound3 (x0 x1 x2 : ℝ) : List ℝ :=
  if x1 - x0 < epsilon ∧ x2 - x1 < epsilon then
    [round6 ((x0 + x1 + x2) / 3.0), round6 ((x0 + x1 + x2) / 3.0),
     round6 ((x0 + x1 + x2) / 3.0)]
  else if x1 - x0 < epsilon then
    [round6 ((x0 + x1) / 2.0), round6 ((x0 + x1) / 2.0), round6 x2]
  else if x2 - x1 < epsilon then
    [round6 x0, round6 ((x1 + x2) / 2.0), round6 ((x1 + x2) / 2.0)]
  else [round6 x0, round6 x1, round6 x2]

/-- `solveCubic(a, b, c, d)`: real roots of `a*x^3 + b*x^2 + c*x + d = 0`,
with the source's degeneracy snapping, root merging and 6-digit rounding. -/
def solveCubic (a b c d : ℝ) : List ℝ :=
  if |a| < epsilon then solveQuadratic b c d
  else
    if cubicR2snap a b c d = 0 ∧ cubicQ3snap a b c = 0 then
      [round6 (-cubicA1 a b / 3.0), round6 (-cubicA1 a b / 3.0),
       round6 (-cubicA1 a b / 3.0)]
    else if cubicR2snap a b c d - cubicQ3snap a b c ≤ epsilon * 0.5 then
      mergeRound3 (sort3 (cubicX0 a b c d) (cubicX1 a b c d) (cubicX2 a b c d)).1
        (sort3 (cubicX0 a b c d) (cubicX1 a b c d) (cubicX2 a b c d)).2.1
        (sort3 (cubicX0 a b c d) (cubicX1 a b c d) (cubicX2 a b c d)).2.2
    else
      [round6
        ((if 0 ≤ cubicR a b c d then
            -((Real.sqrt (cubicR2snap a b c d - cubicQ3snap a b c) +
                  |cubicR a b c d|) ^ ((1 : ℝ) / 3) +
              cubicQ a b c /
                (Real.sqrt (cubicR2snap a b c d - cubicQ3snap a b c) +
                    |cubicR a b c d|) ^ ((1 : ℝ) / 3))
          else
            (Real.sqrt (cubicR2snap a b c d - cubicQ3snap a b c) +
                  |cubicR a b c d|) ^ ((1 : ℝ) / 3) +
              cubicQ a b c /
                (Real.sqrt (cubicR2snap a b c d - cubicQ3snap a b c) +
                    |cubicR a b c d|) ^ ((1 : ℝ) / 3)) -
          cubicA1 a b / 3.0)]

/-! ## Basis conversions -/

/-- `calcQuadraticParameters(pt1, pt2, pt3)`: control points to power basis. -/
def calcQuadraticParameters (pt1 pt2 pt3 : Point) : Point × Point × Point :=
  ((pt3.1 - pt1.1 - (pt2.1 - pt1.1) * 2.0, pt3.2 - pt1.2 - (pt2.2 - pt1.2) * 2.0),
   ((pt2.1 - pt1.1) * 2.0, (pt2.2 - pt1.2) * 2.0),
   (pt1.1, pt1.2))

/-- `calcCubicParameters(pt1, pt2, pt3, pt4)`: control points to power basis. -/
def calcCubicParameters (pt1 pt2 pt3 pt4 : Point) : Point × Point × Point × Point :=
  ((pt4.1 - pt1.1 - (pt2.1 - pt1.1) * 3.0 - ((pt3.1 - pt2.1) * 3.0 - (pt2.1 - pt1.1) * 3.0),
    pt4.2 - pt1.2 - (pt2.2 - pt1.2) * 3.0 - ((pt3.2 - pt2.2) * 3.0 - (pt2.2 - pt1.2) * 3.0)),
   ((pt3.1 - pt2.1) * 3.0 - (pt2.1 - pt1.1) * 3.0,
    (pt3.2 - pt2.2) * 3.0 - (pt2.2 - pt1.2) * 3.0),
   ((pt2.1 - pt1.1) * 3.0, (pt2.2 - pt1.2) * 3.0),
   (pt1.1, pt1.2))

/-- `calcQuadraticPoints(a, b, c)`: power basis back to control points. -/
def calcQuadraticPoints (a b c : Point) : Point × Point × Point :=
  ((c.1, c.2),
   (b.1 * 0.5 + c.1, b.2 * 0.5 + c.2),
   (a.1 + b.1 + c.1, a.2 + b.2 + c.2))

/-- `calcCubicPoints(a, b, c, d)`: power basis back to control points. -/
def calcCubicPoints (a b c d : Point) : Point × Point × Point × Point :=
  ((d.1, d.2),
   (c.1 / 3.0 + d.1, c.2 / 3.0 + d.2),
   ((b.1 + c.1) / 3.0 + (c.1 / 3.0 + d.1), (b.2 + c.2) / 3.0 + (c.2 / 3.0 + d.2)),
   (a.1 + d.1 + c.1 + b.1, a.2 + d.2 + c.2 + b.2))

/-! ## Point evaluators -/

/-- `linePointAtT(pt1, pt2, t)`. -/
def linePointAtT (pt1 pt2 : Point) (t : ℝ) : Point :=
  (pt1.1 * (1 - t) + pt2.1 * t, pt1.2 * (1 - t) + pt2.2 * t)

/-- `quadraticPointAtT(pt1, pt2, pt3, t)` (Bernstein form). -/
def quadraticPointAtT (pt1 pt2 pt3 : Point) (t : ℝ) : Point :=
  ((1 - t) * (1 - t) * pt1.1 + 2 * (1 - t) * t * pt2.1 + t * t * pt3.1,
   (1 - t) * (1 - t) * pt1.2 + 2 * (1 - t) * t * pt2.2 + t * t * pt3.2)

/-- `cubicPointAtT(pt1, pt2, pt3, pt4, t)` (Bernstein form). -/
def cubicPointAtT (pt1 pt2 pt3 pt4 : Point) (t : ℝ) : Point :=
  ((1 - t) * (1 - t) * (1 - t) * pt1.1 + 3 * (1 - t) * (1 - t) * t * pt2.1 +
      3 * (1 - t) * t * t * pt3.1 + t * t * t * pt4.1,
   (1 - t) * (1 - t) * (1 - t) * pt1.2 + 3 * (1 - t) * (1 - t) * t * pt2.2 +
      3 * (1 - t) * t * t * pt3.2 + t * t * t * pt4.2)

/-- `segmentPointAtT(seg, t)`: dispatch on the number of points; any other
arity raises `ValueError("Unknown curve degree")`, modelled as `invalidDegree`. -/
def segmentPointAtT (seg : List Point) (t : ℝ) : Except PyErr Point :=
  match seg with
  | [p1, p2] => .ok (linePointAtT p1 p2 t)
  | [p1, p2, p3] => .ok (quadraticPointAtT p1 p2 p3 t)
  | [p1, p2, p3, p4] => .ok (cubicPointAtT p1 p2 p3 p4 t)
  | _ => .error .invalidDegree

/-! ## Splitters (`_splitQuadraticAtT`, `_splitCubicAtT` and their wrappers) -/

/-- The loop body of `_splitQuadraticAtT`: the sub-segment of the power-basis
quadratic `(a, b, c)` between parameters `t1` and `t2`. -/
def splitQuadraticSeg (a b c : Point) (t1 t2 : ℝ) : Point × Point × Point :=
  calcQuadraticPoints
    (a.1 * ((t2 - t1) * (t2 - t1)), a.2 * ((t2 - t1) * (t2 - t1)))
    ((2 * a.1 * t1 + b.1) * (t2 - t1), (2 * a.2 * t1 + b.2) * (t2 - t1))
    (a.1 * (t1 * t1) + b.1 * t1 + c.1, a.2 * (t1 * t1) + b.2 * t1 + c.2)

/-- The loop of `_splitQuadraticAtT`, walking the consecutive pairs of the
parameter list (which the caller has extended by a leading 0 and trailing 1). -/
def splitQuadraticAtTAux (a b c : Point) : ℝ → List ℝ → List (Point × Point × Point)
  | _, [] => []
  | t1, t2 :: rest => splitQuadraticSeg a b c t1 t2 :: splitQuadraticAtTAux a b c t2 rest

/-- `splitQuadraticAtT(pt1, pt2, pt3, *ts)`. -/
def splitQuadraticAtT (pt1 pt2 pt3 : Point) (ts : List ℝ) : List (Point × Point × Point) :=
  splitQuadraticAtTAux (calcQuadraticParameters pt1 pt2 pt3).1
    (calcQuadraticParameters pt1 pt2 pt3).2.1
    (calcQuadraticParameters pt1 pt2 pt3).2.2 0.0 (ts ++ [1.0])

/-- The loop body of `_splitCubicAtT`: the sub-segment of the power-basis
cubic `(a, b, c, d)` between parameters `t1` and `t2`. -/
def splitCubicSeg (a b c d : Point) (t1 t2 : ℝ) : Point × Point × Point × Point :=
  calcCubicPoints
    (a.1 * ((t2 - t1) * ((t2 - t1) * (t2 - t1))),
     a.2 * ((t2 - t1) * ((t2 - t1) * (t2 - t1))))
    ((3 * a.1 * t1 + b.1) * ((t2 - t1) * (t2 - t1)),
     (3 * a.2 * t1 + b.2) * ((t2 - t1) * (t2 - t1)))
    ((2 * b.1 * t1 + c.1 + 3 * a.1 * (t1 * t1)) * (t2 - t1),
     (2 * b.2 * t1 + c.2 + 3 * a.2 * (t1 * t1)) * (t2 - t1))
    (a.1 * (t1 * (t1 * t1)) + b.1 * (t1 * t1) + c.1 * t1 + d.1,
     a.2 * (t1 * (t1 * t1)) + b.2 * (t1 * t1) + c.2 * t1 + d.2)

/-- The loop of `_splitCubicAtT`. -/
def splitCubicAtTAux (a b c d : Point) : ℝ → List ℝ → List (Point × Point × Point × Point)
  | _, [] => []
  | t1, t2 :: rest => splitCubicSeg a b c d t1 t2 :: splitCubicAtTAux a b c d t2 rest

/-- `splitCubicAtT(pt1, pt2, pt3, pt4, *ts)`. -/
def splitCubicAtT (pt1 pt2 pt3 pt4 : Point) (ts : List ℝ) :
    List (Point × Point × Point × Point) :=
  splitCubicAtTAux (calcCubicParameters pt1 pt2 pt3 pt4).1
    (calcCubicParameters pt1 pt2 pt3 pt4).2.1
    (calcCubicParameters pt1 pt2 pt3 pt4).2.2.1
    (calcCubicParameters pt1 pt2 pt3 pt4).2.2.2 0.0 (ts ++ [1.0])

/-! ## Arc length

The source boxes 2D points as Python complex numbers here; the complex
operations used are subtraction, multiplication by the imaginary unit
(`rot90`), `abs` (`cabs`) and `(v1 * v2.conjugate()).real` (`cdot`). -/

/-- `_dot(v1, v2) = (v1 * v2.conjugate()).real`. -/
def cdot (v1 v2 : Point) : ℝ := v1.1 * v2.1 + v1.2 * v2.2

/-- Multiplication by the imaginary unit: `d * 1j`. -/
def rot90 (v : Point) : Point := (-v.2, v.1)

/-- `abs` of a 2D point boxed as a complex number. -/
def cabs (v : Point) : ℝ := Real.sqrt (v.1 ^ 2 + v.2 ^ 2)

/-- `_intSecAtan(x) = x*sqrt(x**2 + 1)/2 + asinh(x)/2`. -/
def intSecAtan (x : ℝ) : ℝ :=
  x * Real.sqrt (x ^ 2 + 1) / 2 + Real.arsinh x / 2

/-- `d = d1 - d0` in `calcQuadraticArcLengthC`. -/
def quadArcD (pt1 pt2 pt3 : Point) : Point := (pt3 - pt2) - (pt2 - pt1)

/-- `origDist = _dot(n, d0)` in `calcQuadraticArcLengthC`. -/
def quadArcOrigDist (pt1 pt2 pt3 : Point) : ℝ :=
  cdot (rot90 (quadArcD pt1 pt2 pt3)) (pt2 - pt1)

/-- `x0 = _dot(d, d0) / origDist` in `calcQuadraticArcLengthC`. -/
def quadArcX0 (pt1 pt2 pt3 : Point) : ℝ :=
  cdot (quadArcD pt1 pt2 pt3) (pt2 - pt1) / quadArcOrigDist pt1 pt2 pt3

/-- `x1 = _dot(d, d1) / origDist` in `calcQuadraticArcLengthC`. -/
def quadArcX1 (pt1 pt2 pt3 : Point) : ℝ :=
  cdot (quadArcD pt1 pt2 pt3) (pt3 - pt2) / quadArcOrigDist pt1 pt2 pt3

/-- `calcQuadraticArcLengthC(pt1, pt2, pt3)`: the analytical quadratic arc
length, with its degenerate and cusp branches. -/
def calcQuadraticArcLengthC (pt1 pt2 pt3 : Point) : ℝ :=
  if cabs (rot90 (quadArcD pt1 pt2 pt3)) = 0 then cabs (pt3 - pt1)
  else if |quadArcOrigDist pt1 pt2 pt3| < epsilon then
    (if 0 ≤ cdot (pt2 - pt1) (pt3 - pt2) then cabs (pt3 - pt1)
     else
       (cabs (pt2 - pt1) * cabs (pt2 - pt1) + cabs (pt3 - pt2) * cabs (pt3 - pt2)) /
         (cabs (pt2 - pt1) + cabs (pt3 - pt2)))
  else
    |2 * (intSecAtan (quadArcX1 pt1 pt2 pt3) - intSecAtan (quadArcX0 pt1 pt2 pt3)) *
        quadArcOrigDist pt1 pt2 pt3 /
        (cabs (rot90 (quadArcD pt1 pt2 pt3)) *
          (quadArcX1 pt1 pt2 pt3 - quadArcX0 pt1 pt2 pt3))|

/-- `calcQuadraticArcLength(pt1, pt2, pt3)` (the tuple-to-complex wrapper). -/
def calcQuadraticArcLength (pt1 pt2 pt3 : Point) : ℝ :=
  calcQuadraticArcLengthC pt1 pt2 pt3

/-- `_split_cubic_into_two(p0, p1, p2, p3)`. -/
def splitCubicIntoTwo (p0 p1 p2 p3 : Point) :
    (Point × Point × Point × Point) × (Point × Point × Point × Point) :=
  ((p0, (0.5 : ℝ) • (p0 + p1),
    (0.125 : ℝ) • (p0 + (3 : ℝ) • (p1 + p2) + p3) - (0.125 : ℝ) • (p3 + p2 - p1 - p0),
    (0.125 : ℝ) • (p0 + (3 : ℝ) • (p1 + p2) + p3)),
   ((0.125 : ℝ) • (p0 + (3 : ℝ) • (p1 + p2) + p3),
    (0.125 : ℝ) • (p0 + (3 : ℝ) • (p1 + p2) + p3) + (0.125 : ℝ) • (p3 + p2 - p1 - p0),
    (0.5 : ℝ) • (p2 + p3), p3))

/-- `_calcCubicArcLengthCRecurse(mult, p0, p1, p2, p3)`, with explicit
recursion fuel (the source recursion has no syntactic termination measure). -/
def calcCubicArcLengthCRecurse : ℕ → ℝ → Point → Point → Point → Point → Option ℝ
  | 0, _, _, _, _, _ => none
  | fuel + 1, mult, p0, p1, p2, p3 =>
    if cabs (p0 - p1) + cabs (p1 - p2) + cabs (p2 - p3) ≤ cabs (p0 - p3) * mult then
      some ((cabs (p0 - p3) + (cabs (p0 - p1) + cabs (p1 - p2) + cabs (p2 - p3))) * 0.5)
    else
      match splitCubicIntoTwo p0 p1 p2 p3 with
      | ((q0, q1, q2, q3), (r0, r1, r2, r3)) =>
        match calcCubicArcLengthCRecurse fuel mult q0 q1 q2 q3,
            calcCubicArcLengthCRecurse fuel mult r0 r1 r2 r3 with
        | some len1, some len2 => some (len1 + len2)
        | _, _ => none

/-- `calcCubicArcLengthC(pt1, pt2, pt3, pt4, tolerance)`:
`mult = 1. + 1.5 * tolerance`, then the adaptive recursion. -/
def calcCubicArcLengthC (fuel : ℕ) (pt1 pt2 pt3 pt4 : Point) (tolerance : ℝ) : Option ℝ :=
  calcCubicArcLengthCRecurse fuel (1.0 + 1.5 * tolerance) pt1 pt2 pt3 pt4

/-- `calcCubicArcLength(pt1, pt2, pt3, pt4, tolerance)` (the wrapper). -/
def calcCubicArcLength (fuel : ℕ) (pt1 pt2 pt3 pt4 : Point) (tolerance : ℝ) : Option ℝ :=
  calcCubicArcLengthC fuel pt1 pt2 pt3 pt4 tolerance

/-! ## Bounding boxes -/

/-- One accumulation step of `calcBounds`: extend the running rectangle by a
point. -/
def boundsAcc (r : ℝ × ℝ × ℝ × ℝ) (q : Point) : ℝ × ℝ × ℝ × ℝ :=
  (min r.1 q.1, min r.2.1 q.2, max r.2.2.1 q.1, max r.2.2.2 q.2)

/-- Modelled from the spec: `calcBounds` (imported from the array-tools module,
whose sources are not part of this kernel) returns "the axis-aligned extent of
these points" as a tuple `(xMin, yMin, xMax, yMax)`; the empty list yields the
zero rectangle. -/
def calcBounds : List Point → ℝ × ℝ × ℝ × ℝ
  | [] => (0, 0, 0, 0)
  | p :: rest => rest.foldl boundsAcc (p.1, p.2, p.1, p.2)

/-- The candidate points of `calcQuadraticBounds`: the segment evaluated at the
derivative roots in `[0, 1)`, plus both endpoints. -/
def quadBoundsPoints (pt1 pt2 pt3 : Point) : List Point :=
  (((if (calcQuadraticParameters pt1 pt2 pt3).1.1 * 2.0 ≠ 0 then
        [-(calcQuadraticParameters pt1 pt2 pt3).2.1.1 /
            ((calcQuadraticParameters pt1 pt2 pt3).1.1 * 2.0)]
      else []) ++
     (if (calcQuadraticParameters pt1 pt2 pt3).1.2 * 2.0 ≠ 0 then
        [-(calcQuadraticParameters pt1 pt2 pt3).2.1.2 /
            ((calcQuadraticParameters pt1 pt2 pt3).1.2 * 2.0)]
      else [])).filter (fun t => 0 ≤ t ∧ t < 1)).map
    (fun t =>
      ((calcQuadraticParameters pt1 pt2 pt3).1.1 * t * t +
          (calcQuadraticParameters pt1 pt2 pt3).2.1.1 * t +
          (calcQuadraticParameters pt1 pt2 pt3).2.2.1,
       (calcQuadraticParameters pt1 pt2 pt3).1.2 * t * t +
          (calcQuadraticParameters pt1 pt2 pt3).2.1.2 * t +
          (calcQuadraticParameters pt1 pt2 pt3).2.2.2)) ++
    [pt1, pt3]

/-- `calcQuadraticBounds(pt1, pt2, pt3)`. -/
def calcQuadraticBounds (pt1 pt2 pt3 : Point) : ℝ × ℝ × ℝ × ℝ :=
  calcBounds (quadBoundsPoints pt1 pt2 pt3)

/-- The candidate points of `calcCubicBounds`: the power-basis cubic evaluated
at the per-axis derivative roots (from `solveQuadratic`) in `[0, 1)`, plus both
endpoints. -/
def cubicBoundsPoints (pt1 pt2 pt3 pt4 : Point) : List Point :=
  (((solveQuadratic ((calcCubicParameters pt1 pt2 pt3 pt4).1.1 * 3.0)
        ((calcCubicParameters pt1 pt2 pt3 pt4).2.1.1 * 2.0)
        (calcCubicParameters pt1 pt2 pt3 pt4).2.2.1.1).filter
      (fun t => 0 ≤ t ∧ t < 1) ++
    (solveQuadratic ((calcCubicParameters pt1 pt2 pt3 pt4).1.2 * 3.0)
        ((calcCubicParameters pt1 pt2 pt3 pt4).2.1.2 * 2.0)
        (calcCubicParameters pt1 pt2 pt3 pt4).2.2.1.2).filter
      (fun t => 0 ≤ t ∧ t < 1)).map
    (fun t =>
      ((calcCubicParameters pt1 pt2 pt3 pt4).1.1 * t * t * t +
          (calcCubicParameters pt1 pt2 pt3 pt4).2.1.1 * t * t +
          (calcCubicParameters pt1 pt2 pt3 pt4).2.2.1.1 * t +
          (calcCubicParameters pt1 pt2 pt3 pt4).2.2.2.1,
       (calcCubicParameters pt1 pt2 pt3 pt4).1.2 * t * t * t +
          (calcCubicParameters pt1 pt2 pt3 pt4).2.1.2 * t * t +
          (calcCubicParameters pt1 pt2 pt3 pt4).2.2.1.2 * t +
          (calcCubicParameters pt1 pt2 pt3 pt4).2.2.2.2))) ++
    [pt1, pt4]

/-- `calcCubicBounds(pt1, pt2, pt3, pt4)`. -/
def calcCubicBounds (pt1 pt2 pt3 pt4 : Point) : ℝ × ℝ × ℝ × ℝ :=
  calcBounds (cubicBoundsPoints pt1 pt2 pt3 pt4)

/-! ## Intersection engine -/

/-- The `Intersection` named tuple: intersection point, time on the first
segment, time on the second segment. -/
structure Intersection : Type where
  pt : Point
  t1 : ℝ
  t2 : ℝ

/-- `_line_t_of_pt(s, e, pt)`: re-parameterise `pt` along whichever axis of
the line has non-degenerate extent; `-1` for a point-like line. -/
def lineTOfPt (s e pt : Point) : ℝ :=
  if ¬ isclose s.1 e.1 then (pt.1 - s.1) / (e.1 - s.1)
  else if ¬ isclose s.2 e.2 then (pt.2 - s.2) / (e.2 - s.2)
  else -1

/-- `_both_points_are_on_same_side_of_origin(a, b, c)`. -/
def bothPointsAreOnSameSideOfOrigin (a b c : Point) : Prop :=
  ¬((a.1 - c.1) * (b.1 - c.1) ≤ 0 ∧ (a.2 - c.2) * (b.2 - c.2) ≤ 0)

/-- The intersection point of the branch of `lineLineIntersections` where the
second line is vertical: `x = cx`, `y = slope12 * (x - ax) + ay`. -/
def lineLineVert2Pt (s1 e1 s2 : Point) : Point :=
  (s2.1, (e1.2 - s1.2) / (e1.1 - s1.1) * (s2.1 - s1.1) + s1.2)

/-- The `x` solved for in the generic branch of `lineLineIntersections`. -/
def lineLineX (s1 e1 s2 e2 : Point) : ℝ :=
  ((e1.2 - s1.2) / (e1.1 - s1.1) * s1.1 - s1.2 -
      (e2.2 - s2.2) / (e2.1 - s2.1) * s2.1 + s2.2) /
    ((e1.2 - s1.2) / (e1.1 - s1.1) - (e2.2 - s2.2) / (e2.1 - s2.1))

/-- The intersection point computed by the generic branch of
`lineLineIntersections`. -/
def lineLinePt (s1 e1 s2 e2 : Point) : Point :=
  (lineLineX s1 e1 s2 e2,
   (e1.2 - s1.2) / (e1.1 - s1.1) * (lineLineX s1 e1 s2 e2 - s1.1) + s1.2)

/-- `lineLineIntersections(s1, e1, s2, e2)`.  The branch handling a vertical
first line evaluates `slope34 = (dy - xy) / (dx - cx)` where `xy` is an
undefined name, so reaching that branch raises `NameError`. -/
def lineLineIntersections (s1 e1 s2 e2 : Point) : Except PyErr (List Intersection) :=
  if isclose s2.1 e2.1 ∧ isclose s1.1 e1.1 then .ok []
  else if isclose s2.2 e2.2 ∧ isclose s1.2 e1.2 then .ok []
  else if isclose s2.1 e2.1 ∧ isclose s2.2 e2.2 then .ok []
  else if isclose s1.1 e1.1 ∧ isclose s1.2 e1.2 then .ok []
  else if isclose e1.1 s1.1 then .error .nameError
  else if isclose s2.1 e2.1 then
    .ok [{ pt := lineLineVert2Pt s1 e1 s2,
           t1 := lineTOfPt s1 e1 (lineLineVert2Pt s1 e1 s2),
           t2 := lineTOfPt s2 e2 (lineLineVert2Pt s1 e1 s2) }]
  else if isclose ((e1.2 - s1.2) / (e1.1 - s1.1)) ((e2.2 - s2.2) / (e2.1 - s2.1)) then
    .ok []
  else if bothPointsAreOnSameSideOfOrigin (lineLinePt s1 e1 s2 e2) e1 s1 ∧
      bothPointsAreOnSameSideOfOrigin (lineLinePt s1 e1 s2 e2) s2 e2 then
    .ok [{ pt := lineLinePt s1 e1 s2 e2,
           t1 := lineTOfPt s1 e1 (lineLinePt s1 e1 s2 e2),
           t2 := lineTOfPt s2 e2 (lineLinePt s1 e1 s2 e2) }]
  else .ok []

/-- `math.atan2(y, x)`, as the argument of the complex number `x + y*i`. -/
def atan2 (y x : ℝ) : ℝ := Complex.arg ⟨x, y⟩

/-- Modelled from the spec: the map applied by the transform built in
`_alignment_transformation` from `Offset` and `Identity.rotate` (the transform
module is outside these sources): "translate by −line.start, rotate by
−atan2(end − start)". -/
def alignMap (s e : Point) : Point → Point := fun q =>
  (Real.cos (-atan2 (e.2 - s.2) (e.1 - s.1)) * (q.1 - s.1) -
     Real.sin (-atan2 (e.2 - s.2) (e.1 - s.1)) * (q.2 - s.2),
   Real.sin (-atan2 (e.2 - s.2) (e.1 - s.1)) * (q.1 - s.1) +
     Real.cos (-atan2 (e.2 - s.2) (e.1 - s.1)) * (q.2 - s.2))

/-- `_alignment_transformation(segment)`: built from `segment[0]` and
`segment[-1]`; indexing an empty segment raises `IndexError`. -/
def alignmentTransformation (segment : List Point) : Except PyErr (Point → Point) :=
  match segment with
  | [] => .error .indexError
  | p :: rest => .ok (alignMap p (rest.getLast?.getD p))

/-- A call of `calcCubicParameters` on a Python sequence of points: any arity
other than four raises `TypeError`. -/
def calcCubicParametersL (pts : List Point) :
    Except PyErr (Point × Point × Point × Point) :=
  match pts with
  | [p1, p2, p3, p4] => .ok (calcCubicParameters p1 p2 p3 p4)
  | _ => .error .typeError

/-- Insertion step of the model of Python's `sorted`. -/
def insertSorted (x : ℝ) : List ℝ → List ℝ
  | [] => [x]
  | y :: rest => if x ≤ y then x :: y :: rest else y :: insertSorted x rest

/-- Python's `sorted` on a list of floats (insertion sort). -/
def pysorted : List ℝ → List ℝ
  | [] => []
  | x :: rest => insertSorted x (pysorted rest)

/-- `_curve_line_intersections_t(curve, line)`.  The quadratic branch of the
source calls `calcCubicParameters(*aligned_curve)` on the three aligned
points, which raises `TypeError` (missing fourth argument). -/
def curveLineIntersectionsT (curve line : List Point) : Except PyErr (List ℝ) :=
  match alignmentTransformation line with
  | .error e => .error e
  | .ok al =>
    if curve.length = 3 then
      match calcCubicParametersL (curve.map al) with
      | .ok _ => .error .typeError  -- unpacking four values into three names
      | .error e => .error e
    else if curve.length = 4 then
      match calcCubicParametersL (curve.map al) with
      | .ok (a, b, c, d) =>
        .ok (pysorted
          ((solveCubic a.1 b.1 c.1 d.1 ++ solveCubic a.2 b.2 c.2 d.2).filter
            (fun i => 0.0 ≤ i ∧ i ≤ 1)))
      | .error e => .error e
    else .error .invalidDegree

/-- `quadraticPointAtT(*curve, t)` on a Python sequence: any arity other than
three raises `TypeError`. -/
def quadraticPointAtTL (curve : List Point) (t : ℝ) : Except PyErr Point :=
  match curve with
  | [p1, p2, p3] => .ok (quadraticPointAtT p1 p2 p3 t)
  | _ => .error .typeError

/-- `cubicPointAtT(*curve, t)` on a Python sequence: any arity other than four
raises `TypeError`. -/
def cubicPointAtTL (curve : List Point) (t : ℝ) : Except PyErr Point :=
  match curve with
  | [p1, p2, p3, p4] => .ok (cubicPointAtT p1 p2 p3 p4 t)
  | _ => .error .typeError

/-- `_line_t_of_pt(*line, pt)` on a Python sequence: any arity other than two
raises `TypeError`. -/
def lineTOfPtL (line : List Point) (pt : Point) : Except PyErr ℝ :=
  match line with
  | [s, e] => .ok (lineTOfPt s e pt)
  | _ => .error .typeError

/-- The result-building loop of `curveLineIntersections`. -/
def buildCurveLine (pointFinder : ℝ → Except PyErr Point) (line : List Point) :
    List ℝ → Except PyErr (List Intersection)
  | [] => .ok []
  | t :: rest =>
    match pointFinder t with
    | .error e => .error e
    | .ok pt =>
      match lineTOfPtL line pt with
      | .error e => .error e
      | .ok t2 =>
        match buildCurveLine pointFinder line rest with
        | .error e => .error e
        | .ok tail => .ok ({ pt := pt, t1 := t, t2 := t2 } :: tail)

/-- `curveLineIntersections(curve, line)`: dispatch the point finder by the
curve's arity (any other arity raises `ValueError`, modelled as
`invalidDegree`), then build one `Intersection` per parameter. -/
def curveLineIntersections (curve line : List Point) : Except PyErr (List Intersection) :=
  if curve.length = 3 then
    match curveLineIntersectionsT curve line with
    | .error e => .error e
    | .ok ts => buildCurveLine (quadraticPointAtTL curve) line ts
  else if curve.length = 4 then
    match curveLineIntersectionsT curve line with
    | .error e => .error e
    | .ok ts => buildCurveLine (cubicPointAtTL curve) line ts
  else .error .invalidDegree

/-- `_curve_bounds(c)`: falls through (returns `None`) for any arity other
than three or four. -/
def curveBounds (c : List Point) : Option (ℝ × ℝ × ℝ × ℝ) :=
  match c with
  | [p1, p2, p3] => some (calcQuadraticBounds p1 p2 p3)
  | [p1, p2, p3, p4] => some (calcCubicBounds p1 p2 p3 p4)
  | _ => none

/-- Modelled from the spec: `sectRect`'s intersection test ("If bounds don't
intersect, go home"): two closed axis-aligned rectangles meet exactly when
the larger of the minima is at most the smaller of the maxima, on both axes. -/
def sectRectIntersects (r1 r2 : ℝ × ℝ × ℝ × ℝ) : Prop :=
  max r1.1 r2.1 ≤ min r1.2.2.1 r2.2.2.1 ∧ max r1.2.1 r2.2.1 ≤ min r1.2.2.2 r2.2.2.2

/-- Modelled from the spec: `rectArea`, the area of a bounds rectangle. -/
def rectArea (r : ℝ × ℝ × ℝ × ℝ) : ℝ := (r.2.2.1 - r.1) * (r.2.2.2 - r.2.1)

/-- `_split_segment_at_t(c, t)`: falls through (returns `None`) for any arity
other than two, three or four. -/
def splitSegmentAtT (c : List Point) (t : ℝ) : Option (List (List Point)) :=
  match c with
  | [s, e] => some [[s, linePointAtT s e t], [linePointAtT s e t, e]]
  | [p1, p2, p3] =>
    some ((splitQuadraticAtT p1 p2 p3 [t]).map fun q => [q.1, q.2.1, q.2.2])
  | [p1, p2, p3, p4] =>
    some ((splitCubicAtT p1 p2 p3 p4 [t]).map fun q => [q.1, q.2.1, q.2.2.1, q.2.2.2])
  | _ => none

/-- `midpoint(r) = 0.5 * (r[0] + r[1])`. -/
def midpointR (r : ℝ × ℝ) : ℝ := 0.5 * (r.1 + r.2)

/-- Python `int()`: truncation toward zero. -/
def pyint (x : ℝ) : ℤ := if 0 ≤ x then ⌊x⌋ else ⌈x⌉

/-- The deduplication of `_curve_curve_intersections_t`: keep the first entry
per key `int(ts[0] / precision)`. -/
def dedupTs (precision : ℝ) : List ℤ → List (ℝ × ℝ) → List (ℝ × ℝ)
  | _, [] => []
  | seen, ts :: rest =>
    if pyint (ts.1 / precision) ∈ seen then dedupTs precision seen rest
    else ts :: dedupTs precision (pyint (ts.1 / precision) :: seen) rest

/-- `_curve_curve_intersections_t(curve1, curve2, precision, range1, range2)`,
with explicit recursion fuel.  When `_curve_bounds` returns `None` (arity
outside {3, 4}), `sectRect` unpacks it and raises `TypeError`. -/
def curveCurveIntersectionsT :
    ℕ → List Point → List Point → ℝ → ℝ × ℝ → ℝ × ℝ → Except PyErr (List (ℝ × ℝ))
  | 0, _, _, _, _, _ => .error .fuelOut
  | fuel + 1, curve1, curve2, precision, range1, range2 =>
    match curveBounds curve1 with
    | none => .error .typeError
    | some bounds1 =>
      match curveBounds curve2 with
      | none => .error .typeError
      | some bounds2 =>
        if ¬sectRectIntersects bounds1 bounds2 then .ok []
        else if rectArea bounds1 < precision ∧ rectArea bounds2 < precision then
          .ok [(midpointR range1, midpointR range2)]
        else
          match splitSegmentAtT curve1 0.5 with
          | some [c11, c12] =>
            match splitSegmentAtT curve2 0.5 with
            | some [c21, c22] =>
              match curveCurveIntersectionsT fuel c11 c21 precision
                  (range1.1, midpointR range1) (range2.1, midpointR range2) with
              | .error e => .error e
              | .ok f1 =>
                match curveCurveIntersectionsT fuel c12 c21 precision
                    (midpointR range1, range1.2) (range2.1, midpointR range2) with
                | .error e => .error e
                | .ok f2 =>
                  match curveCurveIntersectionsT fuel c11 c22 precision
                      (range1.1, midpointR range1) (midpointR range2, range2.2) with
                  | .error e => .error e
                  | .ok f3 =>
                    match curveCurveIntersectionsT fuel c12 c22 precision
                        (midpointR range1, range1.2) (midpointR range2, range2.2) with
                    | .error e => .error e
                    | .ok f4 => .ok (dedupTs precision [] (f1 ++ f2 ++ f3 ++ f4))
            | _ => .error .typeError
          | _ => .error .typeError

/-- The result-building comprehension of `curveCurveIntersections`: the point
of each record is the first curve evaluated at `t1`. -/
def buildCurveCurve (curve1 : List Point) :
    List (ℝ × ℝ) → Except PyErr (List Intersection)
  | [] => .ok []
  | ts :: rest =>
    match segmentPointAtT curve1 ts.1 with
    | .error e => .error e
    | .ok pt =>
      match buildCurveCurve curve1 rest with
      | .error e => .error e
      | .ok tail => .ok ({ pt := pt, t1 := ts.1, t2 := ts.2 } :: tail)

/-- `curveCurveIntersections(curve1, curve2)` (default precision `1e-3`). -/
def curveCurveIntersections (fuel : ℕ) (curve1 curve2 : List Point) :
    Except PyErr (List Intersection) :=
  match curveCurveIntersectionsT fuel curve1 curve2 1e-3 (0.0, 1.0) (0.0, 1.0) with
  | .error e => .error e
  | .ok ts => buildCurveCurve curve1 ts

/-- `lineLineIntersections(*seg1, *seg2)` on Python sequences: any arity other
than two-and-two raises `TypeError`. -/
def lineLineIntersectionsL (seg1 seg2 : List Point) : Except PyErr (List Intersection) :=
  match seg1, seg2 with
  | [s1, e1], [s2, e2] => lineLineIntersections s1 e1 s2 e2
  | _, _ => .error .typeError

/-- The dispatch of `segmentSegmentIntersections` after the arity sort. -/
def segmentSegmentDispatch (fuel : ℕ) (seg1 seg2 : List Point) :
    Except PyErr (List Intersection) :=
  if 2 < seg1.length then
    if 2 < seg2.length then curveCurveIntersections fuel seg1 seg2
    else curveLineIntersections seg1 seg2
  else if seg1.length = 2 ∧ seg2.length = 2 then
    lineLineIntersectionsL seg1 seg2
  else .error .invalidDegree

/-- `segmentSegmentIntersections(seg1, seg2)`: swap so the higher-arity
segment comes first, then dispatch; the fall-through raises `ValueError`,
modelled as `invalidDegree`. -/
def segmentSegmentIntersections (fuel : ℕ) (seg1 seg2 : List Point) :
    Except PyErr (List Intersection) :=
  if seg1.length < seg2.length then segmentSegmentDispatch fuel seg2 seg1
  else segmentSegmentDispatch fuel seg1 seg2

end

/-! ## General lemmas -/

theorem epsilon_pos : (0 : ℝ) < epsilon := by norm_num [epsilon]

theorem isclose_symm {a b : ℝ} (h : isclose a b) : isclose b a := by
  unfold isclose at h ⊢
  rw [abs_sub_comm, max_comm |b| |a|]
  exact h

theorem isclose_self (a : ℝ) : isclose a a := by
  unfold isclose
  simp

theorem round6_mono {x y : ℝ} (h : x ≤ y) : round6 x ≤ round6 y := by
  unfold round6
  have h1 : round (x * 1000000) ≤ round (y * 1000000) := by
    rw [round_eq, round_eq]
    exact Int.floor_mono (by linarith)
  have h2 : ((round (x * 1000000) : ℤ) : ℝ) ≤ ((round (y * 1000000) : ℤ) : ℝ) := by
    exact_mod_cast h1
  linarith

theorem sort3_sorted (x y z : ℝ) :
    (sort3 x y z).1 ≤ (sort3 x y z).2.1 ∧ (sort3 x y z).2.1 ≤ (sort3 x y z).2.2 := by
  unfold sort3
  split_ifs <;> constructor <;> simp_all <;> linarith

theorem mergeRound3_sorted {x0 x1 x2 : ℝ} (h01 : x0 ≤ x1) (h12 : x1 ≤ x2) :
    ∃ y0 y1 y2, mergeRound3 x0 x1 x2 = [y0, y1, y2] ∧ y0 ≤ y1 ∧ y1 ≤ y2 := by
  unfold mergeRound3
  split_ifs with h hb hc
  · exact ⟨_, _, _, rfl, le_refl _, le_refl _⟩
  · exact ⟨_, _, _, rfl, le_refl _, round6_mono (by linarith)⟩
  · exact ⟨_, _, _, rfl, round6_mono (by linarith), le_refl _⟩
  · exact ⟨_, _, _, rfl, round6_mono h01, round6_mono h12⟩

/-! ## C8: power-basis conversion round-trip -/

/-- C8: Power-basis conversion round-trips exactly in real arithmetic: for
every quadratic control-point triple, `calcQuadraticPoints` applied to
`calcQuadraticParameters` returns the original points, and likewise
`calcCubicPoints` after `calcCubicParameters` for every cubic quadruple. -/
theorem calcPoints_calcParameters_roundtrip (pt1 pt2 pt3 q1 q2 q3 q4 : Point) :
    calcQuadraticPoints (calcQuadraticParameters pt1 pt2 pt3).1
        (calcQuadraticParameters pt1 pt2 pt3).2.1
        (calcQuadraticParameters pt1 pt2 pt3).2.2 = (pt1, pt2, pt3) ∧
    calcCubicPoints (calcCubicParameters q1 q2 q3 q4).1
        (calcCubicParameters q1 q2 q3 q4).2.1
        (calcCubicParameters q1 q2 q3 q4).2.2.1
        (calcCubicParameters q1 q2 q3 q4).2.2.2 = (q1, q2, q3, q4) := by
  obtain ⟨x1, y1⟩ := pt1
  obtain ⟨x2, y2⟩ := pt2
  obtain ⟨x3, y3⟩ := pt3
  obtain ⟨u1, v1⟩ := q1
  obtain ⟨u2, v2⟩ := q2
  obtain ⟨u3, v3⟩ := q3
  obtain ⟨u4, v4⟩ := q4
  unfold calcQuadraticPoints calcQuadraticParameters calcCubicPoints calcCubicParameters
  exact ⟨Prod.ext (Prod.ext (by ring) (by ring))
      (Prod.ext (Prod.ext (by ring) (by ring)) (Prod.ext (by ring) (by ring))),
    Prod.ext (Prod.ext (by ring) (by ring))
      (Prod.ext (Prod.ext (by ring) (by ring))
        (Prod.ext (Prod.ext (by ring) (by ring)) (Prod.ext (by ring) (by ring))))⟩

/-! ## C4: `solveQuadratic` case analysis -/

/-- C4: `solveQuadratic` returns `[]` when both `|a|` and `|b|` are below
`epsilon`; the single root `[-c/b]` when only `|a|` is below; `[]` when the
discriminant is negative; and otherwise exactly the two roots
`(-b ± √Δ)/(2a)` in that order — each of which really is a root. -/
theorem solveQuadratic_spec (a b c : ℝ) :
    (|a| < epsilon → |b| < epsilon → solveQuadratic a b c = []) ∧
    (|a| < epsilon → epsilon ≤ |b| → solveQuadratic a b c = [-c / b]) ∧
    (epsilon ≤ |a| → b * b - 4.0 * a * c < 0 → solveQuadratic a b c = []) ∧
    (epsilon ≤ |a| → 0 ≤ b * b - 4.0 * a * c →
      solveQuadratic a b c =
        [(-b + Real.sqrt (b * b - 4.0 * a * c)) / (2 * a),
         (-b - Real.sqrt (b * b - 4.0 * a * c)) / (2 * a)] ∧
      ∀ x ∈ solveQuadratic a b c, a * x ^ 2 + b * x + c = 0) := by
  refine ⟨fun ha hb => ?_, fun ha hb => ?_, fun ha hD => ?_, fun ha hD => ?_⟩
  · rw [solveQuadratic, if_pos ha, if_pos hb]
  · rw [solveQuadratic, if_pos ha, if_neg (not_lt.2 hb)]
  · rw [solveQuadratic, if_neg (not_lt.2 ha), if_neg (not_le.2 hD)]
  · have ha0 : a ≠ 0 := by
      intro h
      rw [h, abs_zero] at ha
      exact absurd ha (not_le.2 epsilon_pos)
    have heq : solveQuadratic a b c =
        [(-b + Real.sqrt (b * b - 4.0 * a * c)) / (2 * a),
         (-b - Real.sqrt (b * b - 4.0 * a * c)) / (2 * a)] := by
      rw [solveQuadratic, if_neg (not_lt.2 ha), if_pos hD]
      rw [div_div, div_div]
      norm_num
    refine ⟨heq, ?_⟩
    have hr : Real.sqrt (b * b - 4.0 * a * c) ^ 2 = b * b - 4.0 * a * c :=
      Real.sq_sqrt hD
    have key : ∀ s : ℝ, s ^ 2 = b * b - 4.0 * a * c →
        a * ((-b + s) / (2 * a)) ^ 2 + b * ((-b + s) / (2 * a)) + c = 0 := by
      intro s hs
      field_simp
      linear_combination 2 * a ^ 2 * hs
    intro x hx
    rw [heq] at hx
    simp only [List.mem_cons, List.mem_singleton, List.not_mem_nil, or_false] at hx
    rcases hx with rfl | rfl
    · exact key _ hr
    · have := key (-Real.sqrt (b * b - 4.0 * a * c)) (by rw [neg_pow]; simpa using hr)
      simpa [sub_eq_add_neg] using this

/-- Witness for C4 at concrete inputs: one instantiation of each of the four
branches of `solveQuadratic_spec`. -/
theorem solveQuadratic_spec_witness :
    solveQuadratic 0 0 5 = [] ∧
    solveQuadratic 0 1 2 = [-2 / 1] ∧
    solveQuadratic 1 0 1 = [] ∧
    (solveQuadratic 1 0 (-1) =
        [(-0 + Real.sqrt (0 * 0 - 4.0 * 1 * (-1))) / (2 * 1),
         (-0 - Real.sqrt (0 * 0 - 4.0 * 1 * (-1))) / (2 * 1)] ∧
      ∀ x ∈ solveQuadratic 1 0 (-1), 1 * x ^ 2 + 0 * x + (-1) = 0) :=
  ⟨(solveQuadratic_spec 0 0 5).1 (by norm_num [epsilon]) (by norm_num [epsilon]),
   (solveQuadratic_spec 0 1 2).2.1 (by norm_num [epsilon]) (by norm_num [epsilon]),
   (solveQuadratic_spec 1 0 1).2.2.1 (by norm_num [epsilon]) (by norm_num),
   (solveQuadratic_spec 1 0 (-1)).2.2.2 (by norm_num [epsilon]) (by norm_num)⟩

/-! ## C2: the vertical-first-line branch of `lineLineIntersections` -/

/-- C2: the claim states that for a vertical (per `isclose`) non-degenerate
first segment and a non-vertical non-degenerate second segment,
`lineLineIntersections` returns the intersection computed with
`slope34 = (dy - cy)/(dx - cx)`.  The source instead evaluates the undefined
name `xy` in this branch, so the call raises `NameError`. -/
theorem lineLine_vertical_first_nameError (s1 e1 s2 e2 : Point)
    (hv : isclose s1.1 e1.1)
    (hd1 : ¬(isclose s1.1 e1.1 ∧ isclose s1.2 e1.2))
    (_hd2 : ¬(isclose s2.1 e2.1 ∧ isclose s2.2 e2.2))
    (hnv2 : ¬ isclose s2.1 e2.1) :
    lineLineIntersections s1 e1 s2 e2 = .error .nameError := by
  have hny : ¬ isclose s1.2 e1.2 := fun h => hd1 ⟨hv, h⟩
  rw [lineLineIntersections,
    if_neg (fun h : _ ∧ _ => hnv2 h.1),
    if_neg (fun h : _ ∧ _ => hny h.2),
    if_neg (fun h : _ ∧ _ => hnv2 h.1),
    if_neg hd1,
    if_pos (isclose_symm hv)]

/-- Witness for C2: a concrete vertical first segment and slanted-horizontal
second segment reach the `NameError` branch. -/
theorem lineLine_vertical_first_nameError_witness :
    lineLineIntersections (0, 0) (0, 10) (-5, 1) (5, 1) = .error .nameError :=
  lineLine_vertical_first_nameError (0, 0) (0, 10) (-5, 1) (5, 1)
    (isclose_self 0)
    (by simp only [isclose, not_and]; intro; norm_num)
    (by simp only [isclose, not_and]; intro h; norm_num at h)
    (by simp only [isclose]; norm_num)

/-! ## C1: the quadratic branch of `curveLineIntersections` -/

theorem calcCubicParametersL_three {l : List Point} (h : l.length = 3) :
    calcCubicParametersL l = .error .typeError := by
  match l, h with
  | [p1, p2, p3], _ => rfl

/-- C1: the claim states that for a quadratic curve `curveLineIntersections`
aligns the curve to the line and solves the resulting quadratic (degree-2
basis conversion).  The source's quadratic branch instead calls the cubic
basis conversion `calcCubicParameters` on the three aligned points, which
raises `TypeError` for every quadratic curve and every line. -/
theorem curveLine_quadratic_typeError (curve : List Point) (s e : Point)
    (h3 : curve.length = 3) :
    curveLineIntersections curve [s, e] = .error .typeError := by
  match curve, h3 with
  | [p1, p2, p3], _ =>
    rw [curveLineIntersections]
    norm_num [curveLineIntersectionsT, alignmentTransformation,
      calcCubicParametersL_three]

/-- Witness for C1: the failing call on a concrete quadratic and line. -/
theorem curveLine_quadratic_typeError_witness :
    curveLineIntersections [(0, 0), (50, 100), (100, 0)] [(0, 0), (100, 0)] =
      .error .typeError :=
  curveLine_quadratic_typeError [(0, 0), (50, 100), (100, 0)] (0, 0) (100, 0) rfl

/-! ## C3: `solveCubic` — triple-root and three-real-roots branches -/

/-- C3: for `|a| ≥ epsilon`, in the triple-root case (both snapped `R²` and
`Q³` zero) `solveCubic` returns the single root `−a₁/3` rounded to 6 digits,
repeated three times; in the three-real-roots case (`R² − Q³ ≤ epsilon/2`
after snapping, not both zero) it returns exactly three roots: the sorted
trigonometric roots with adjacent roots within `epsilon` merged to their
average and every returned root rounded to 6 decimal digits
(`mergeRound3` applied to the sorted triple), and the returned list is
sorted ascending. -/
theorem solveCubic_branches (a b c d : ℝ) (ha : epsilon ≤ |a|) :
    ((cubicR2snap a b c d = 0 ∧ cubicQ3snap a b c = 0) →
      solveCubic a b c d =
        [round6 (-cubicA1 a b / 3.0), round6 (-cubicA1 a b / 3.0),
         round6 (-cubicA1 a b / 3.0)]) ∧
    (¬(cubicR2snap a b c d = 0 ∧ cubicQ3snap a b c = 0) →
      cubicR2snap a b c d - cubicQ3snap a b c ≤ epsilon * 0.5 →
      solveCubic a b c d =
        mergeRound3 (sort3 (cubicX0 a b c d) (cubicX1 a b c d) (cubicX2 a b c d)).1
          (sort3 (cubicX0 a b c d) (cubicX1 a b c d) (cubicX2 a b c d)).2.1
          (sort3 (cubicX0 a b c d) (cubicX1 a b c d) (cubicX2 a b c d)).2.2 ∧
      ∃ y0 y1 y2, solveCubic a b c d = [y0, y1, y2] ∧ y0 ≤ y1 ∧ y1 ≤ y2) := by
  have hna : ¬(|a| < epsilon) := not_lt.2 ha
  constructor
  · intro htriple
    rw [solveCubic, if_neg hna, if_pos htriple]
  · intro hnt hle
    have heq : solveCubic a b c d =
        mergeRound3 (sort3 (cubicX0 a b c d) (cubicX1 a b c d) (cubicX2 a b c d)).1
          (sort3 (cubicX0 a b c d) (cubicX1 a b c d) (cubicX2 a b c d)).2.1
          (sort3 (cubicX0 a b c d) (cubicX1 a b c d) (cubicX2 a b c d)).2.2 := by
      rw [solveCubic, if_neg hna, if_neg hnt, if_pos hle]
    refine ⟨heq, ?_⟩
    obtain ⟨h1, h2⟩ := sort3_sorted (cubicX0 a b c d) (cubicX1 a b c d) (cubicX2 a b c d)
    obtain ⟨y0, y1, y2, hm, hy01, hy12⟩ := mergeRound3_sorted h1 h2
    exact ⟨y0, y1, y2, heq.trans hm, hy01, hy12⟩

/-- Witness for C3: `x³ = 0` exercises the triple-root branch and
`x³ - x = 0` the three-real-roots branch. -/
theorem solveCubic_branches_witness :
    solveCubic 1 0 0 0 = [0, 0, 0] ∧
    ∃ y0 y1 y2, solveCubic 1 0 (-1) 0 = [y0, y1, y2] ∧ y0 ≤ y1 ∧ y1 ≤ y2 := by
  constructor
  · have h := (solveCubic_branches 1 0 0 0 (by norm_num [epsilon])).1
      ⟨by norm_num [cubicR2snap, cubicR, cubicA1, cubicA2, cubicA3, epsilon],
       by norm_num [cubicQ3snap, cubicQ, cubicA1, cubicA2, epsilon]⟩
    rw [h]
    norm_num [cubicA1, round6]
  · have hQ : cubicQ 1 0 (-1) = 1 / 3 := by norm_num [cubicQ, cubicA1, cubicA2]
    have hQ3 : cubicQ3snap 1 0 (-1) = 1 / 27 := by
      rw [cubicQ3snap, hQ,
        abs_of_nonneg (by norm_num : (0 : ℝ) ≤ 1 / 3 * (1 / 3) * (1 / 3)),
        if_neg (by norm_num [epsilon])]
      norm_num
    have hR : cubicR 1 0 (-1) 0 = 0 := by
      norm_num [cubicR, cubicA1, cubicA2, cubicA3]
    have hR2 : cubicR2snap 1 0 (-1) 0 = 0 := by
      rw [cubicR2snap, hR]
      norm_num [epsilon]
    exact ((solveCubic_branches 1 0 (-1) 0 (by norm_num [epsilon])).2
      (by simp [hR2, hQ3])
      (by rw [hR2, hQ3]; norm_num [epsilon])).2

/-! ## C6: `splitQuadraticAtT` / `splitCubicAtT` chaining -/

/-- The power-basis quadratic evaluated at `t` (both coordinates). -/
def evalQ (a b c : Point) (t : ℝ) : Point :=
  (a.1 * t ^ 2 + b.1 * t + c.1, a.2 * t ^ 2 + b.2 * t + c.2)

/-- The power-basis cubic evaluated at `t` (both coordinates). -/
def evalC (a b c d : Point) (t : ℝ) : Point :=
  (a.1 * t ^ 3 + b.1 * t ^ 2 + c.1 * t + d.1,
   a.2 * t ^ 3 + b.2 * t ^ 2 + c.2 * t + d.2)

/-- The sub-segments of a quadratic split chain: the first starts at `s`,
consecutive segments share their endpoint / start point, the last ends at `e`. -/
def chainQ : Point → List (Point × Point × Point) → Point → Prop
  | s, [], e => s = e
  | s, seg :: rest, e => seg.1 = s ∧ chainQ seg.2.2 rest e

/-- The sub-segments of a cubic split chain. -/
def chainC : Point → List (Point × Point × Point × Point) → Point → Prop
  | s, [], e => s = e
  | s, seg :: rest, e => seg.1 = s ∧ chainC seg.2.2.2 rest e

theorem splitQuadraticSeg_fst (a b c : Point) (t1 t2 : ℝ) :
    (splitQuadraticSeg a b c t1 t2).1 = evalQ a b c t1 := by
  unfold splitQuadraticSeg calcQuadraticPoints evalQ
  exact Prod.ext (by ring) (by ring)

theorem splitQuadraticSeg_last (a b c : Point) (t1 t2 : ℝ) :
    (splitQuadraticSeg a b c t1 t2).2.2 = evalQ a b c t2 := by
  unfold splitQuadraticSeg calcQuadraticPoints evalQ
  exact Prod.ext (by ring) (by ring)

theorem splitCubicSeg_fst (a b c d : Point) (t1 t2 : ℝ) :
    (splitCubicSeg a b c d t1 t2).1 = evalC a b c d t1 := by
  unfold splitCubicSeg calcCubicPoints evalC
  exact Prod.ext (by ring) (by ring)

theorem splitCubicSeg_last (a b c d : Point) (t1 t2 : ℝ) :
    (splitCubicSeg a b c d t1 t2).2.2.2 = evalC a b c d t2 := by
  unfold splitCubicSeg calcCubicPoints evalC
  exact Prod.ext (by ring) (by ring)

theorem splitQuadraticAtTAux_chain (a b c : Point) :
    ∀ (l : List ℝ) (t1 : ℝ),
      chainQ (evalQ a b c t1) (splitQuadraticAtTAux a b c t1 l)
        (evalQ a b c (l.getLast?.getD t1))
  | [], t1 => by simp [splitQuadraticAtTAux, chainQ]
  | t2 :: rest, t1 => by
    simp only [splitQuadraticAtTAux, chainQ]
    refine ⟨splitQuadraticSeg_fst a b c t1 t2, ?_⟩
    rw [splitQuadraticSeg_last]
    have h := splitQuadraticAtTAux_chain a b c rest t2
    cases rest with
    | nil => simpa using h
    | cons r rs => simpa [List.getLast?_cons_cons] using h

theorem splitCubicAtTAux_chain (a b c d : Point) :
    ∀ (l : List ℝ) (t1 : ℝ),
      chainC (evalC a b c d t1) (splitCubicAtTAux a b c d t1 l)
        (evalC a b c d (l.getLast?.getD t1))
  | [], t1 => by simp [splitCubicAtTAux, chainC]
  | t2 :: rest, t1 => by
    simp only [splitCubicAtTAux, chainC]
    refine ⟨splitCubicSeg_fst a b c d t1 t2, ?_⟩
    rw [splitCubicSeg_last]
    have h := splitCubicAtTAux_chain a b c d rest t2
    cases rest with
    | nil => simpa using h
    | cons r rs => simpa [List.getLast?_cons_cons] using h

theorem splitQuadraticAtTAux_length (a b c : Point) :
    ∀ (l : List ℝ) (t1 : ℝ), (splitQuadraticAtTAux a b c t1 l).length = l.length
  | [], _ => rfl
  | _ :: rest, _ => by
    simp [splitQuadraticAtTAux, splitQuadraticAtTAux_length a b c rest]

theorem splitCubicAtTAux_length (a b c d : Point) :
    ∀ (l : List ℝ) (t1 : ℝ), (splitCubicAtTAux a b c d t1 l).length = l.length
  | [], _ => rfl
  | _ :: rest, _ => by
    simp [splitCubicAtTAux, splitCubicAtTAux_length a b c d rest]

/-- C6: for every quadratic and cubic segment and every ascending list of `k`
parameters in `[0, 1]`, `splitQuadraticAtT` / `splitCubicAtT` return exactly
`k+1` sub-segments of the same arity whose endpoints chain: the first starts
at the input's start point, consecutive sub-segments share their boundary
point, and the last ends at the input's end point (exactly, in real
arithmetic). -/
theorem splitAtT_chain (p1 p2 p3 q1 q2 q3 q4 : Point) (ts : List ℝ)
    (_hsort : ts.Sorted (· ≤ ·)) (_hin : ∀ t ∈ ts, 0 ≤ t ∧ t ≤ 1) :
    (splitQuadraticAtT p1 p2 p3 ts).length = ts.length + 1 ∧
    chainQ p1 (splitQuadraticAtT p1 p2 p3 ts) p3 ∧
    (splitCubicAtT q1 q2 q3 q4 ts).length = ts.length + 1 ∧
    chainC q1 (splitCubicAtT q1 q2 q3 q4 ts) q4 := by
  refine ⟨?_, ?_, ?_, ?_⟩
  · rw [splitQuadraticAtT, splitQuadraticAtTAux_length]
    simp
  · have h := splitQuadraticAtTAux_chain (calcQuadraticParameters p1 p2 p3).1
      (calcQuadraticParameters p1 p2 p3).2.1 (calcQuadraticParameters p1 p2 p3).2.2
      (ts ++ [1.0]) 0.0
    rw [List.getLast?_concat] at h
    have h0 : evalQ (calcQuadraticParameters p1 p2 p3).1
        (calcQuadraticParameters p1 p2 p3).2.1
        (calcQuadraticParameters p1 p2 p3).2.2 0.0 = p1 := by
      unfold evalQ calcQuadraticParameters
      exact Prod.ext (by norm_num) (by norm_num)
    have h1 : evalQ (calcQuadraticParameters p1 p2 p3).1
        (calcQuadraticParameters p1 p2 p3).2.1
        (calcQuadraticParameters p1 p2 p3).2.2 ((some 1.0).getD 0.0) = p3 := by
      unfold evalQ calcQuadraticParameters
      exact Prod.ext (by norm_num) (by norm_num)
    rw [h0, h1] at h
    exact h
  · rw [splitCubicAtT, splitCubicAtTAux_length]
    simp
  · have h := splitCubicAtTAux_chain (calcCubicParameters q1 q2 q3 q4).1
      (calcCubicParameters q1 q2 q3 q4).2.1 (calcCubicParameters q1 q2 q3 q4).2.2.1
      (calcCubicParameters q1 q2 q3 q4).2.2.2 (ts ++ [1.0]) 0.0
    rw [List.getLast?_concat] at h
    have h0 : evalC (calcCubicParameters q1 q2 q3 q4).1
        (calcCubicParameters q1 q2 q3 q4).2.1
        (calcCubicParameters q1 q2 q3 q4).2.2.1
        (calcCubicParameters q1 q2 q3 q4).2.2.2 0.0 = q1 := by
      unfold evalC calcCubicParameters
      exact Prod.ext (by norm_num) (by norm_num)
    have h1 : evalC (calcCubicParameters q1 q2 q3 q4).1
        (calcCubicParameters q1 q2 q3 q4).2.1
        (calcCubicParameters q1 q2 q3 q4).2.2.1
        (calcCubicParameters q1 q2 q3 q4).2.2.2 ((some 1.0).getD 0.0) = q4 := by
      unfold evalC calcCubicParameters
      exact Prod.ext (by norm_num) (by norm_num)
    rw [h0, h1] at h
    exact h

/-- Witness for C6 with one split point `t = 0.5` on concrete segments. -/
theorem splitAtT_chain_witness :
    (splitQuadraticAtT (0, 0) (1, 1) (2, 0) [0.5]).length = 1 + 1 ∧
    chainQ (0, 0) (splitQuadraticAtT (0, 0) (1, 1) (2, 0) [0.5]) (2, 0) ∧
    (splitCubicAtT (0, 0) (1, 1) (2, 1) (3, 0) [0.5]).length = 1 + 1 ∧
    chainC (0, 0) (splitCubicAtT (0, 0) (1, 1) (2, 1) (3, 0) [0.5]) (3, 0) := by
  have h := splitAtT_chain (0, 0) (1, 1) (2, 0) (0, 0) (1, 1) (2, 1) (3, 0) [0.5]
    (by simp) (by norm_num)
  simpa using h

/-! ## C7: arc length — non-negativity and collinear exactness -/

theorem cabs_nonneg (v : Point) : 0 ≤ cabs v := Real.sqrt_nonneg _

theorem cabs_smul (r : ℝ) (v : Point) (hr : 0 ≤ r) : cabs (r • v) = r * cabs v := by
  unfold cabs
  have h1 : (r • v).1 = r * v.1 := rfl
  have h2 : (r • v).2 = r * v.2 := rfl
  rw [h1, h2, show (r * v.1) ^ 2 + (r * v.2) ^ 2 = r ^ 2 * (v.1 ^ 2 + v.2 ^ 2) by ring,
    Real.sqrt_mul (sq_nonneg r), Real.sqrt_sq hr]

theorem cabs_neg (v : Point) : cabs (-v) = cabs v := by
  unfold cabs
  have h1 : (-v).1 = -v.1 := rfl
  have h2 : (-v).2 = -v.2 := rfl
  rw [h1, h2, neg_pow, neg_pow]
  norm_num

theorem calcQuadraticArcLengthC_nonneg (p1 p2 p3 : Point) :
    0 ≤ calcQuadraticArcLengthC p1 p2 p3 := by
  unfold calcQuadraticArcLengthC
  split_ifs
  · exact cabs_nonneg _
  · exact cabs_nonneg _
  · exact div_nonneg
      (by nlinarith [cabs_nonneg (p2 - p1), cabs_nonneg (p3 - p2)])
      (by nlinarith [cabs_nonneg (p2 - p1), cabs_nonneg (p3 - p2)])
  · exact abs_nonneg _

theorem calcQuadraticArcLengthC_collinear (p1 p2 p3 v : Point) (s t : ℝ)
    (hs : 0 ≤ s) (ht : 0 ≤ t) (h1 : p2 - p1 = s • v) (h2 : p3 - p2 = t • v) :
    calcQuadraticArcLengthC p1 p2 p3 = cabs (p3 - p1) := by
  have hd : quadArcD p1 p2 p3 = (t - s) • v := by
    rw [quadArcD, h1, h2, sub_smul]
  have hod : quadArcOrigDist p1 p2 p3 = 0 := by
    rw [quadArcOrigDist, hd, h1]
    show -((t - s) • v).2 * (s • v).1 + ((t - s) • v).1 * (s • v).2 = 0
    show -((t - s) * v.2) * (s * v.1) + (t - s) * v.1 * (s * v.2) = 0
    ring
  have hdot : 0 ≤ cdot (p2 - p1) (p3 - p2) := by
    rw [h1, h2]
    show 0 ≤ s * v.1 * (t * v.1) + s * v.2 * (t * v.2)
    have : s * v.1 * (t * v.1) + s * v.2 * (t * v.2) =
        (s * t) * (v.1 ^ 2 + v.2 ^ 2) := by ring
    rw [this]
    exact mul_nonneg (mul_nonneg hs ht) (by positivity)
  by_cases hscale : cabs (rot90 (quadArcD p1 p2 p3)) = 0
  · rw [calcQuadraticArcLengthC, if_pos hscale]
  · rw [calcQuadraticArcLengthC, if_neg hscale,
      if_pos (show |quadArcOrigDist p1 p2 p3| < epsilon by
        rw [hod, abs_zero]; exact epsilon_pos),
      if_pos hdot]

theorem calcCubicArcLengthCRecurse_nonneg :
    ∀ (fuel : ℕ) (mult : ℝ) (p0 p1 p2 p3 : Point) (L : ℝ),
      calcCubicArcLengthCRecurse fuel mult p0 p1 p2 p3 = some L → 0 ≤ L := by
  intro fuel
  induction fuel with
  | zero =>
    intro mult p0 p1 p2 p3 L h
    simp [calcCubicArcLengthCRecurse] at h
  | succ n ih =>
    intro mult p0 p1 p2 p3 L h
    rw [calcCubicArcLengthCRecurse] at h
    by_cases hflat :
        cabs (p0 - p1) + cabs (p1 - p2) + cabs (p2 - p3) ≤ cabs (p0 - p3) * mult
    · rw [if_pos hflat] at h
      have hL : (cabs (p0 - p3) + (cabs (p0 - p1) + cabs (p1 - p2) + cabs (p2 - p3))) *
          0.5 = L := by
        injection h
      rw [← hL]
      have := cabs_nonneg (p0 - p3)
      have := cabs_nonneg (p0 - p1)
      have := cabs_nonneg (p1 - p2)
      have := cabs_nonneg (p2 - p3)
      nlinarith
    · rw [if_neg hflat] at h
      rcases hS : splitCubicIntoTwo p0 p1 p2 p3 with ⟨⟨q0, q1, q2, q3⟩, ⟨r0, r1, r2, r3⟩⟩
      rw [hS] at h
      dsimp only at h
      rcases hL1 : calcCubicArcLengthCRecurse n mult q0 q1 q2 q3 with _ | L1 <;>
        rw [hL1] at h
      · simp at h
      rcases hL2 : calcCubicArcLengthCRecurse n mult r0 r1 r2 r3 with _ | L2 <;>
        rw [hL2] at h
      · simp at h
      have hL : L1 + L2 = L := by injection h
      rw [← hL]
      exact add_nonneg (ih mult q0 q1 q2 q3 L1 hL1) (ih mult r0 r1 r2 r3 L2 hL2)

theorem calcCubicArcLengthC_collinear (p1 p2 p3 p4 v : Point) (s t u tol : ℝ)
    (fuel : ℕ) (hs : 0 ≤ s) (ht : 0 ≤ t) (hu : 0 ≤ u) (htol : 0 ≤ tol)
    (h1 : p2 - p1 = s • v) (h2 : p3 - p2 = t • v) (h3 : p4 - p3 = u • v) :
    calcCubicArcLengthC (fuel + 1) p1 p2 p3 p4 tol = some (cabs (p4 - p1)) := by
  have e1 : cabs (p1 - p2) = s * cabs v := by
    rw [show p1 - p2 = -(p2 - p1) by ring, cabs_neg, h1, cabs_smul s v hs]
  have e2 : cabs (p2 - p3) = t * cabs v := by
    rw [show p2 - p3 = -(p3 - p2) by ring, cabs_neg, h2, cabs_smul t v ht]
  have e3 : cabs (p3 - p4) = u * cabs v := by
    rw [show p3 - p4 = -(p4 - p3) by ring, cabs_neg, h3, cabs_smul u v hu]
  have e4 : p4 - p1 = (s + t + u) • v := by
    rw [show p4 - p1 = (p2 - p1) + (p3 - p2) + (p4 - p3) by ring, h1, h2, h3]
    rw [add_smul, add_smul]
  have e5 : cabs (p1 - p4) = (s + t + u) * cabs v := by
    rw [show p1 - p4 = -(p4 - p1) by ring, cabs_neg, e4,
      cabs_smul _ v (by linarith)]
  have hmult : (1 : ℝ) ≤ 1.0 + 1.5 * tol := by nlinarith
  have hbox : cabs (p1 - p2) + cabs (p2 - p3) + cabs (p3 - p4) ≤
      cabs (p1 - p4) * (1.0 + 1.5 * tol) := by
    rw [e1, e2, e3, e5]
    have hv := cabs_nonneg v
    have hstu : (0 : ℝ) ≤ s + t + u := by linarith
    nlinarith [mul_nonneg (mul_nonneg hstu hv) htol]
  rw [calcCubicArcLengthC, calcCubicArcLengthCRecurse, if_pos hbox]
  have : (cabs (p1 - p4) + (cabs (p1 - p2) + cabs (p2 - p3) + cabs (p3 - p4))) * 0.5 =
      cabs (p4 - p1) := by
    rw [e1, e2, e3, e5, show p4 - p1 = -(p1 - p4) by ring, cabs_neg, e5]
    ring
  rw [this]

/-- C7: the quadratic arc length is non-negative, and equals the straight
endpoint distance when the control points are collinear and monotonically
ordered along the chord (successive differences are non-negative multiples of
one direction vector); likewise the cubic arc length: every value it returns
is non-negative, and in the collinear monotone case it returns exactly the
endpoint distance. -/
theorem arcLength_nonneg_and_collinear :
    (∀ p1 p2 p3 : Point, 0 ≤ calcQuadraticArcLength p1 p2 p3) ∧
    (∀ (p1 p2 p3 v : Point) (s t : ℝ), 0 ≤ s → 0 ≤ t →
      p2 - p1 = s • v → p3 - p2 = t • v →
      calcQuadraticArcLength p1 p2 p3 = cabs (p3 - p1)) ∧
    (∀ (fuel : ℕ) (p1 p2 p3 p4 : Point) (tol L : ℝ),
      calcCubicArcLength fuel p1 p2 p3 p4 tol = some L → 0 ≤ L) ∧
    (∀ (fuel : ℕ) (p1 p2 p3 p4 v : Point) (s t u tol : ℝ),
      0 ≤ s → 0 ≤ t → 0 ≤ u → 0 ≤ tol →
      p2 - p1 = s • v → p3 - p2 = t • v → p4 - p3 = u • v →
      calcCubicArcLength (fuel + 1) p1 p2 p3 p4 tol = some (cabs (p4 - p1))) := by
  refine ⟨?_, ?_, ?_, ?_⟩
  · intro p1 p2 p3
    exact calcQuadraticArcLengthC_nonneg p1 p2 p3
  · intro p1 p2 p3 v s t hs ht h1 h2
    exact calcQuadraticArcLengthC_collinear p1 p2 p3 v s t hs ht h1 h2
  · intro fuel p1 p2 p3 p4 tol L h
    exact calcCubicArcLengthCRecurse_nonneg fuel (1.0 + 1.5 * tol) p1 p2 p3 p4 L h
  · intro fuel p1 p2 p3 p4 v s t u tol hs ht hu htol h1 h2 h3
    exact calcCubicArcLengthC_collinear p1 p2 p3 p4 v s t u tol fuel hs ht hu htol h1 h2 h3

/-- Witness for C7 on concrete collinear segments along `(1, 0)`. -/
theorem arcLength_nonneg_and_collinear_witness :
    (0 ≤ calcQuadraticArcLength (0, 0) (0, 1) (1, 2)) ∧
    calcQuadraticArcLength (0, 0) (1, 0) (3, 0) = cabs (((3, 0) : Point) - (0, 0)) ∧
    calcCubicArcLength 1 (0, 0) (1, 0) (2, 0) (3, 0) 0.005 =
      some (cabs (((3, 0) : Point) - (0, 0))) ∧
    0 ≤ cabs (((3, 0) : Point) - (0, 0)) := by
  have hcubic := arcLength_nonneg_and_collinear.2.2.2 0 (0, 0) (1, 0) (2, 0) (3, 0)
    (1, 0) 1 1 1 0.005 (by norm_num) (by norm_num) (by norm_num) (by norm_num)
    (Prod.ext (by norm_num) (by norm_num))
    (Prod.ext (by norm_num) (by norm_num))
    (Prod.ext (by norm_num) (by norm_num))
  refine ⟨arcLength_nonneg_and_collinear.1 (0, 0) (0, 1) (1, 2), ?_, hcubic,
    arcLength_nonneg_and_collinear.2.2.1 1 (0, 0) (1, 0) (2, 0) (3, 0) 0.005 _ hcubic⟩
  exact arcLength_nonneg_and_collinear.2.1 (0, 0) (1, 0) (3, 0) (1, 0) 1 2
    (by norm_num) (by norm_num)
    (Prod.ext (by norm_num) (by norm_num))
    (Prod.ext (by norm_num) (by norm_num))

/-! ## C10: curve/curve intersection points evaluate the first curve -/

theorem buildCurveCurve_pt (c1 : List Point) :
    ∀ (ts : List (ℝ × ℝ)) (res : List Intersection),
      buildCurveCurve c1 ts = .ok res →
      ∀ I ∈ res, segmentPointAtT c1 I.t1 = .ok I.pt := by
  intro ts
  induction ts with
  | nil =>
    intro res h I hI
    rw [buildCurveCurve] at h
    have : ([] : List Intersection) = res := by injection h
    rw [← this] at hI
    simp at hI
  | cons p rest ih =>
    intro res h I hI
    rw [buildCurveCurve] at h
    rcases hp : segmentPointAtT c1 p.1 with e | pt <;> rw [hp] at h
    · simp at h
    rcases ht : buildCurveCurve c1 rest with e | tail <;> rw [ht] at h
    · simp at h
    have hres : ({ pt := pt, t1 := p.1, t2 := p.2 } : Intersection) :: tail = res := by
      injection h
    rw [← hres] at hI
    rcases List.mem_cons.1 hI with rfl | hmem
    · exact hp
    · exact ih tail ht I hmem

/-- C10: every `Intersection` returned by `curveCurveIntersections` carries a
point obtained by evaluating the **first** curve at `t1`:
`pt = segmentPointAtT(curve1, t1)` exactly; the second curve is never
evaluated to produce `pt`. -/
theorem curveCurveIntersections_pt (fuel : ℕ) (c1 c2 : List Point)
    (res : List Intersection)
    (h : curveCurveIntersections fuel c1 c2 = .ok res) :
    ∀ I ∈ res, segmentPointAtT c1 I.t1 = .ok I.pt := by
  rw [curveCurveIntersections] at h
  rcases hT : curveCurveIntersectionsT fuel c1 c2 1e-3 (0.0, 1.0) (0.0, 1.0) with e | ts <;>
    rw [hT] at h
  · simp at h
  · exact buildCurveCurve_pt c1 ts res h

/-- Witness for C10: a concrete degenerate-size quadratic pair whose top-level
bounding boxes are already below the precision, so the search returns the
midpoint pair `(0.5, 0.5)`; the returned point is the first curve at `0.5`. -/
theorem curveCurveIntersections_pt_witness :
    curveCurveIntersections 1 [(0, 0), (0.005, 0.005), (0.01, 0.01)]
        [(0, 0), (0.005, 0.005), (0.01, 0.01)] =
      .ok [{ pt := (0.005, 0.005), t1 := 0.5, t2 := 0.5 }] ∧
    segmentPointAtT [(0, 0), (0.005, 0.005), (0.01, 0.01)] 0.5 =
      .ok (0.005, 0.005) := by
  have hB : calcQuadraticBounds (0, 0) (0.005, 0.005) (0.01, 0.01) =
      (0, 0, 0.01, 0.01) := by
    norm_num [calcQuadraticBounds, quadBoundsPoints, calcQuadraticParameters,
      calcBounds, boundsAcc]
  have hcb : curveBounds [(0, 0), (0.005, 0.005), (0.01, 0.01)] =
      some (0, 0, 0.01, 0.01) := by
    rw [show curveBounds [(0, 0), (0.005, 0.005), (0.01, 0.01)] =
        some (calcQuadraticBounds (0, 0) (0.005, 0.005) (0.01, 0.01)) from rfl, hB]
  have hsect : sectRectIntersects ((0 : ℝ), (0 : ℝ), (0.01 : ℝ), (0.01 : ℝ))
      (0, 0, 0.01, 0.01) := by
    constructor <;> norm_num
  have harea : rectArea ((0 : ℝ), (0 : ℝ), (0.01 : ℝ), (0.01 : ℝ)) < 1e-3 := by
    norm_num [rectArea]
  have hT : curveCurveIntersectionsT 1 [(0, 0), (0.005, 0.005), (0.01, 0.01)]
      [(0, 0), (0.005, 0.005), (0.01, 0.01)] 1e-3 (0.0, 1.0) (0.0, 1.0) =
      .ok [(0.5, 0.5)] := by
    rw [show (1 : ℕ) = 0 + 1 from rfl, curveCurveIntersectionsT, hcb]
    dsimp only
    rw [if_neg (not_not_intro hsect), if_pos ⟨harea, harea⟩]
    norm_num [midpointR]
  have hpt : segmentPointAtT [(0, 0), (0.005, 0.005), (0.01, 0.01)] 0.5 =
      .ok (0.005, 0.005) := by
    rw [show segmentPointAtT [(0, 0), (0.005, 0.005), (0.01, 0.01)] 0.5 =
        .ok (quadraticPointAtT (0, 0) (0.005, 0.005) (0.01, 0.01) 0.5) from rfl]
    norm_num [quadraticPointAtT, Prod.ext_iff]
  have hmain : curveCurveIntersections 1 [(0, 0), (0.005, 0.005), (0.01, 0.01)]
      [(0, 0), (0.005, 0.005), (0.01, 0.01)] =
      .ok [{ pt := (0.005, 0.005), t1 := 0.5, t2 := 0.5 }] := by
    rw [curveCurveIntersections, hT]
    dsimp only
    rw [buildCurveCurve, hpt, buildCurveCurve]
  refine ⟨hmain, ?_⟩
  have := curveCurveIntersections_pt 1 _ _ _ hmain
    { pt := (0.005, 0.005), t1 := 0.5, t2 := 0.5 } (by simp)
  simpa using this

/-! ## C9: `InvalidDegree` behaviour of the dispatchers -/

theorem alignmentTransformation_ne_ID (line : List Point) :
    alignmentTransformation line ≠ .error .invalidDegree := by
  cases line <;> simp [alignmentTransformation]

theorem calcCubicParametersL_ne_ID (pts : List Point) :
    calcCubicParametersL pts ≠ .error .invalidDegree := by
  rcases pts with _ | ⟨a, _ | ⟨b, _ | ⟨c, _ | ⟨d, _ | ⟨e, r⟩⟩⟩⟩⟩ <;>
    simp [calcCubicParametersL]

theorem calcCubicParametersL_four {l : List Point} (h : l.length = 4) :
    ∃ v, calcCubicParametersL l = .ok v := by
  match l, h with
  | [p1, p2, p3, p4], _ => exact ⟨_, rfl⟩

theorem lineTOfPtL_ne_ID (line : List Point) (pt : Point) :
    lineTOfPtL line pt ≠ .error .invalidDegree := by
  rcases line with _ | ⟨a, _ | ⟨b, _ | ⟨c, r⟩⟩⟩ <;> simp [lineTOfPtL]

theorem quadraticPointAtTL_ne_ID (curve : List Point) (t : ℝ) :
    quadraticPointAtTL curve t ≠ .error .invalidDegree := by
  rcases curve with _ | ⟨a, _ | ⟨b, _ | ⟨c, _ | ⟨d, r⟩⟩⟩⟩ <;> simp [quadraticPointAtTL]

theorem cubicPointAtTL_ne_ID (curve : List Point) (t : ℝ) :
    cubicPointAtTL curve t ≠ .error .invalidDegree := by
  rcases curve with _ | ⟨a, _ | ⟨b, _ | ⟨c, _ | ⟨d, _ | ⟨e, r⟩⟩⟩⟩⟩ <;>
    simp [cubicPointAtTL]

theorem curveLineIntersectionsT_no_ID (curve line : List Point)
    (h : curve.length = 3 ∨ curve.length = 4) :
    curveLineIntersectionsT curve line ≠ .error .invalidDegree := by
  rw [curveLineIntersectionsT]
  rcases halign : alignmentTransformation line with e | al
  · dsimp only
    intro hc
    injection hc with hc
    exact alignmentTransformation_ne_ID line (by rw [halign, hc])
  · dsimp only
    rcases h with h3 | h4
    · rw [if_pos h3, calcCubicParametersL_three (by simp [h3])]
      simp
    · rw [if_neg (by omega), if_pos h4]
      obtain ⟨⟨a, b, c, d⟩, hv⟩ := calcCubicParametersL_four
        (show (curve.map al).length = 4 by simp [h4])
      rw [hv]
      simp

theorem buildCurveLine_no_ID (pf : ℝ → Except PyErr Point)
    (hpf : ∀ t, pf t ≠ .error .invalidDegree) (line : List Point) :
    ∀ ts, buildCurveLine pf line ts ≠ .error .invalidDegree := by
  intro ts
  induction ts with
  | nil => simp [buildCurveLine]
  | cons t rest ih =>
    rw [buildCurveLine]
    rcases hp : pf t with e | pt
    · dsimp only
      intro hc
      injection hc with hc
      exact hpf t (by rw [hp, hc])
    · dsimp only
      rcases hl : lineTOfPtL line pt with e | t2
      · dsimp only
        intro hc
        injection hc with hc
        exact lineTOfPtL_ne_ID line pt (by rw [hl, hc])
      · dsimp only
        rcases hb : buildCurveLine pf line rest with e | tail
        · dsimp only
          intro hc
          injection hc with hc
          exact ih (by rw [hb, hc])
        · simp

theorem curveLineIntersections_no_ID (curve line : List Point)
    (h : curve.length = 3 ∨ curve.length = 4) :
    curveLineIntersections curve line ≠ .error .invalidDegree := by
  rcases h with h3 | h4
  · rw [curveLineIntersections, if_pos h3]
    rcases hT : curveLineIntersectionsT curve line with e | ts
    · dsimp only
      intro hc
      injection hc with hc
      exact curveLineIntersectionsT_no_ID curve line (Or.inl h3) (by rw [hT, hc])
    · dsimp only
      exact buildCurveLine_no_ID _ (quadraticPointAtTL_ne_ID curve) line ts
  · rw [curveLineIntersections, if_neg (by omega), if_pos h4]
    rcases hT : curveLineIntersectionsT curve line with e | ts
    · dsimp only
      intro hc
      injection hc with hc
      exact curveLineIntersectionsT_no_ID curve line (Or.inr h4) (by rw [hT, hc])
    · dsimp only
      exact buildCurveLine_no_ID _ (cubicPointAtTL_ne_ID curve) line ts

theorem curveBounds_some {c : List Point} (h : c.length = 3 ∨ c.length = 4) :
    ∃ b, curveBounds c = some b := by
  rcases h with h | h
  · match c, h with
    | [p1, p2, p3], _ => exact ⟨_, rfl⟩
  · match c, h with
    | [p1, p2, p3, p4], _ => exact ⟨_, rfl⟩

theorem curveBounds_none_of_ge5 {c : List Point} (h : 5 ≤ c.length) :
    curveBounds c = none := by
  match c, h with
  | p1 :: p2 :: p3 :: p4 :: p5 :: r, _ => rfl

theorem curveCurveIntersectionsT_ge5 {c1 : List Point} (c2 : List Point)
    (fuel : ℕ) (prec : ℝ) (r1 r2 : ℝ × ℝ) (h5 : 5 ≤ c1.length) :
    curveCurveIntersectionsT (fuel + 1) c1 c2 prec r1 r2 = .error .typeError := by
  rw [curveCurveIntersectionsT, curveBounds_none_of_ge5 h5]

theorem splitSegmentAtT_pair {c : List Point} (h : c.length = 3 ∨ c.length = 4) :
    ∃ u v, splitSegmentAtT c 0.5 = some [u, v] ∧
      u.length = c.length ∧ v.length = c.length := by
  rcases h with h | h
  · match c, h with
    | [p1, p2, p3], _ => exact ⟨_, _, rfl, rfl, rfl⟩
  · match c, h with
    | [p1, p2, p3, p4], _ => exact ⟨_, _, rfl, rfl, rfl⟩

theorem segmentPointAtT_ok34 {c : List Point}
    (h : c.length = 3 ∨ c.length = 4) (t : ℝ) :
    ∃ p, segmentPointAtT c t = .ok p := by
  rcases h with h | h
  · match c, h with
    | [p1, p2, p3], _ => exact ⟨_, rfl⟩
  · match c, h with
    | [p1, p2, p3, p4], _ => exact ⟨_, rfl⟩

theorem buildCurveCurve_no_ID {c1 : List Point}
    (h : c1.length = 3 ∨ c1.length = 4) :
    ∀ ts, buildCurveCurve c1 ts ≠ .error .invalidDegree := by
  intro ts
  induction ts with
  | nil => simp [buildCurveCurve]
  | cons p rest ih =>
    rw [buildCurveCurve]
    obtain ⟨q, hq⟩ := segmentPointAtT_ok34 h p.1
    rw [hq]
    dsimp only
    rcases hb : buildCurveCurve c1 rest with e | tail
    · dsimp only
      intro hc
      injection hc with hc
      exact ih (by rw [hb, hc])
    · simp

theorem curveCurveIntersectionsT_no_ID :
    ∀ (fuel : ℕ) (c1 c2 : List Point) (prec : ℝ) (r1 r2 : ℝ × ℝ),
      (c1.length = 3 ∨ c1.length = 4) → (c2.length = 3 ∨ c2.length = 4) →
      curveCurveIntersectionsT fuel c1 c2 prec r1 r2 ≠ .error .invalidDegree := by
  intro fuel
  induction fuel with
  | zero =>
    intro c1 c2 prec r1 r2 _ _
    simp [curveCurveIntersectionsT]
  | succ n ih =>
    intro c1 c2 prec r1 r2 h1 h2
    rw [curveCurveIntersectionsT]
    obtain ⟨b1, hb1⟩ := curveBounds_some h1
    obtain ⟨b2, hb2⟩ := curveBounds_some h2
    rw [hb1, hb2]
    dsimp only
    by_cases hsect : sectRectIntersects b1 b2
    swap
    · rw [if_pos hsect]
      simp
    rw [if_neg (not_not_intro hsect)]
    by_cases harea : rectArea b1 < prec ∧ rectArea b2 < prec
    · rw [if_pos harea]
      simp
    · rw [if_neg harea]
      obtain ⟨u1, v1, hsp1, hu1, hv1⟩ := splitSegmentAtT_pair h1
      obtain ⟨u2, v2, hsp2, hu2, hv2⟩ := splitSegmentAtT_pair h2
      rw [hsp1, hsp2]
      dsimp only
      have hu1' : u1.length = 3 ∨ u1.length = 4 := by rw [hu1]; exact h1
      have hv1' : v1.length = 3 ∨ v1.length = 4 := by rw [hv1]; exact h1
      have hu2' : u2.length = 3 ∨ u2.length = 4 := by rw [hu2]; exact h2
      have hv2' : v2.length = 3 ∨ v2.length = 4 := by rw [hv2]; exact h2
      rcases hf1 : curveCurveIntersectionsT n u1 u2 prec (r1.1, midpointR r1)
          (r2.1, midpointR r2) with e | f1
      · dsimp only
        intro hc
        injection hc with hc
        exact ih u1 u2 prec _ _ hu1' hu2' (by rw [hf1, hc])
      dsimp only
      rcases hf2 : curveCurveIntersectionsT n v1 u2 prec (midpointR r1, r1.2)
          (r2.1, midpointR r2) with e | f2
      · dsimp only
        intro hc
        injection hc with hc
        exact ih v1 u2 prec _ _ hv1' hu2' (by rw [hf2, hc])
      dsimp only
      rcases hf3 : curveCurveIntersectionsT n u1 v2 prec (r1.1, midpointR r1)
          (midpointR r2, r2.2) with e | f3
      · dsimp only
        intro hc
        injection hc with hc
        exact ih u1 v2 prec _ _ hu1' hv2' (by rw [hf3, hc])
      dsimp only
      rcases hf4 : curveCurveIntersectionsT n v1 v2 prec (midpointR r1, r1.2)
          (midpointR r2, r2.2) with e | f4
      · dsimp only
        intro hc
        injection hc with hc
        exact ih v1 v2 prec _ _ hv1' hv2' (by rw [hf4, hc])
      simp

theorem curveCurveIntersections_no_ID (fuel : ℕ) (c1 c2 : List Point)
    (h1 : c1.length = 3 ∨ c1.length = 4) (h2 : c2.length = 3 ∨ c2.length = 4) :
    curveCurveIntersections fuel c1 c2 ≠ .error .invalidDegree := by
  rw [curveCurveIntersections]
  rcases hT : curveCurveIntersectionsT fuel c1 c2 1e-3 (0.0, 1.0) (0.0, 1.0) with e | ts
  · dsimp only
    intro hc
    injection hc with hc
    exact curveCurveIntersectionsT_no_ID fuel c1 c2 1e-3 (0.0, 1.0) (0.0, 1.0) h1 h2
      (by rw [hT, hc])
  · dsimp only
    exact buildCurveCurve_no_ID h1 ts

theorem lineLine_no_ID (s1 e1 s2 e2 : Point) :
    lineLineIntersections s1 e1 s2 e2 ≠ .error .invalidDegree := by
  rw [lineLineIntersections]
  split_ifs <;> simp

theorem lineLineIntersectionsL_ne_ID (seg1 seg2 : List Point) :
    lineLineIntersectionsL seg1 seg2 ≠ .error .invalidDegree := by
  rcases seg1 with _ | ⟨a, _ | ⟨b, _ | ⟨c, r⟩⟩⟩ <;>
    rcases seg2 with _ | ⟨a', _ | ⟨b', _ | ⟨c', r'⟩⟩⟩ <;>
    simp [lineLineIntersectionsL]
  exact lineLine_no_ID a b a' b'

theorem segmentSegmentDispatch_no_ID (fuel : ℕ) (s1 s2 : List Point)
    (h1 : s1.length = 2 ∨ s1.length = 3 ∨ s1.length = 4)
    (h2 : s2.length = 2 ∨ s2.length = 3 ∨ s2.length = 4)
    (hord : s2.length ≤ s1.length) :
    segmentSegmentDispatch fuel s1 s2 ≠ .error .invalidDegree := by
  by_cases ha : 2 < s1.length
  · by_cases hb : 2 < s2.length
    · rw [segmentSegmentDispatch, if_pos ha, if_pos hb]
      exact curveCurveIntersections_no_ID fuel s1 s2 (by omega) (by omega)
    · rw [segmentSegmentDispatch, if_pos ha, if_neg hb]
      exact curveLineIntersections_no_ID s1 s2 (by omega)
  · have h1' : s1.length = 2 := by omega
    have h2' : s2.length = 2 := by omega
    rw [segmentSegmentDispatch, if_neg ha, if_pos ⟨h1', h2'⟩]
    exact lineLineIntersectionsL_ne_ID s1 s2

/-- C9 (amended): `segmentPointAtT` raises `InvalidDegree` exactly when the
segment's length is not 2, 3 or 4.  `segmentSegmentIntersections` never
raises `InvalidDegree` when both lengths are 2, 3 or 4; it raises
`InvalidDegree` when both lengths are at most 2 but not both equal 2, and
when the longer segment has length at least 5 while the shorter has length
at most 2; but when the longer segment has length at least 5 and the shorter
at least 3 it fails with a `TypeError` (from unpacking the `None` returned
by `_curve_bounds`), not with `InvalidDegree`. -/
theorem segment_dispatch_invalidDegree :
    (∀ (seg : List Point) (t : ℝ),
      segmentPointAtT seg t = .error .invalidDegree ↔
        ¬(seg.length = 2 ∨ seg.length = 3 ∨ seg.length = 4)) ∧
    (∀ (fuel : ℕ) (seg1 seg2 : List Point),
      (seg1.length = 2 ∨ seg1.length = 3 ∨ seg1.length = 4) →
      (seg2.length = 2 ∨ seg2.length = 3 ∨ seg2.length = 4) →
      segmentSegmentIntersections fuel seg1 seg2 ≠ .error .invalidDegree) ∧
    (∀ (fuel : ℕ) (seg1 seg2 : List Point),
      seg1.length ≤ 2 → seg2.length ≤ 2 →
      ¬(seg1.length = 2 ∧ seg2.length = 2) →
      segmentSegmentIntersections fuel seg1 seg2 = .error .invalidDegree) ∧
    (∀ (fuel : ℕ) (seg1 seg2 : List Point),
      5 ≤ seg1.length → seg2.length ≤ 2 →
      segmentSegmentIntersections fuel seg1 seg2 = .error .invalidDegree) ∧
    (∀ (fuel : ℕ) (seg1 seg2 : List Point),
      5 ≤ seg1.length → 3 ≤ seg2.length → seg2.length ≤ seg1.length →
      segmentSegmentIntersections (fuel + 1) seg1 seg2 = .error .typeError) := by
  refine ⟨?_, ?_, ?_, ?_, ?_⟩
  · intro seg t
    rcases seg with _ | ⟨a, _ | ⟨b, _ | ⟨c, _ | ⟨d, _ | ⟨e, r⟩⟩⟩⟩⟩ <;>
      simp [segmentPointAtT]
  · intro fuel seg1 seg2 h1 h2
    by_cases hsw : seg1.length < seg2.length
    · rw [segmentSegmentIntersections, if_pos hsw]
      exact segmentSegmentDispatch_no_ID fuel seg2 seg1 h2 h1 (le_of_lt hsw)
    · rw [segmentSegmentIntersections, if_neg hsw]
      exact segmentSegmentDispatch_no_ID fuel seg1 seg2 h1 h2 (not_lt.1 hsw)
  · intro fuel seg1 seg2 hl1 hl2 hnot
    by_cases hsw : seg1.length < seg2.length
    · rw [segmentSegmentIntersections, if_pos hsw, segmentSegmentDispatch,
        if_neg (by omega), if_neg (by omega)]
    · rw [segmentSegmentIntersections, if_neg hsw, segmentSegmentDispatch,
        if_neg (by omega), if_neg (by omega)]
  · intro fuel seg1 seg2 h5 h2
    rw [segmentSegmentIntersections, if_neg (by omega), segmentSegmentDispatch,
      if_pos (by omega), if_neg (by omega), curveLineIntersections,
      if_neg (by omega), if_neg (by omega)]
  · intro fuel seg1 seg2 h5 h3 hord
    rw [segmentSegmentIntersections, if_neg (by omega), segmentSegmentDispatch,
      if_pos (by omega), if_pos (by omega), curveCurveIntersections,
      curveCurveIntersectionsT_ge5 seg2 fuel 1e-3 (0.0, 1.0) (0.0, 1.0) h5]

/-- Counterexample for C9 as literally stated: two five-point segments make
`segmentSegmentIntersections` raise `TypeError` (unpacking the `None` from
`_curve_bounds`), not `InvalidDegree`. -/
theorem segment_dispatch_ID_counterexample :
    segmentSegmentIntersections 1 [(0, 0), (1, 0), (2, 0), (3, 0), (4, 0)]
        [(0, 1), (1, 1), (2, 1), (3, 1), (4, 1)] = .error .typeError ∧
    PyErr.typeError ≠ PyErr.invalidDegree := by
  exact ⟨rfl, by simp⟩

/-- Witness for C9 (amended): each conjunct at a concrete instance. -/
theorem segment_dispatch_invalidDegree_witness :
    (segmentPointAtT ([] : List Point) 0 = .error .invalidDegree) ∧
    segmentSegmentIntersections 0 [((0 : ℝ), (0 : ℝ)), (1, 1)]
        [((0 : ℝ), (1 : ℝ)), (1, 0)] ≠ .error .invalidDegree ∧
    segmentSegmentIntersections 0 [((0 : ℝ), (0 : ℝ)), (1, 1)] [((5 : ℝ), (5 : ℝ))] =
      .error .invalidDegree ∧
    segmentSegmentIntersections 0
        [((0 : ℝ), (0 : ℝ)), (1, 0), (2, 0), (3, 0), (4, 0)]
        [((0 : ℝ), (1 : ℝ)), (1, 1)] = .error .invalidDegree ∧
    segmentSegmentIntersections 1
        [((0 : ℝ), (0 : ℝ)), (1, 0), (2, 0), (3, 0), (4, 0)]
        [((0 : ℝ), (1 : ℝ)), (1, 1), (2, 1)] = .error .typeError := by
  refine ⟨(segment_dispatch_invalidDegree.1 [] 0).2 (by simp), ?_, ?_, ?_, ?_⟩
  · exact segment_dispatch_invalidDegree.2.1 0 _ _ (by simp) (by simp)
  · exact segment_dispatch_invalidDegree.2.2.1 0 _ _ (by simp) (by simp) (by simp)
  · exact segment_dispatch_invalidDegree.2.2.2.1 0 _ _ (by simp) (by simp)
  · exact segment_dispatch_invalidDegree.2.2.2.2 0 _ _ (by simp) (by simp) (by simp)

/-! ## C5: bounding boxes — fold lemmas, extrema, root membership -/

theorem foldl_boundsAcc_start (rest : List Point) :
    ∀ r : ℝ × ℝ × ℝ × ℝ,
      (rest.foldl boundsAcc r).1 ≤ r.1 ∧ (rest.foldl boundsAcc r).2.1 ≤ r.2.1 ∧
      r.2.2.1 ≤ (rest.foldl boundsAcc r).2.2.1 ∧
      r.2.2.2 ≤ (rest.foldl boundsAcc r).2.2.2 := by
  induction rest with
  | nil => intro r; exact ⟨le_refl _, le_refl _, le_refl _, le_refl _⟩
  | cons q rest ih =>
    intro r
    have h := ih (boundsAcc r q)
    rw [List.foldl_cons]
    exact ⟨h.1.trans (min_le_left _ _), h.2.1.trans (min_le_left _ _),
      (le_max_left _ _).trans h.2.2.1, (le_max_left _ _).trans h.2.2.2⟩

theorem foldl_boundsAcc_mem (rest : List Point) :
    ∀ (r : ℝ × ℝ × ℝ × ℝ) (q : Point), q ∈ rest →
      (rest.foldl boundsAcc r).1 ≤ q.1 ∧ (rest.foldl boundsAcc r).2.1 ≤ q.2 ∧
      q.1 ≤ (rest.foldl boundsAcc r).2.2.1 ∧ q.2 ≤ (rest.foldl boundsAcc r).2.2.2 := by
  induction rest with
  | nil => intro r q hq; simp at hq
  | cons p rest ih =>
    intro r q hq
    rw [List.foldl_cons]
    rcases List.mem_cons.1 hq with rfl | hmem
    · have h := foldl_boundsAcc_start rest (boundsAcc r q)
      exact ⟨h.1.trans (min_le_right _ _), h.2.1.trans (min_le_right _ _),
        (le_max_right _ _).trans h.2.2.1, (le_max_right _ _).trans h.2.2.2⟩
    · exact ih (boundsAcc r p) q hmem

theorem calcBounds_mem {pts : List Point} {q : Point} (h : q ∈ pts) :
    (calcBounds pts).1 ≤ q.1 ∧ (calcBounds pts).2.1 ≤ q.2 ∧
    q.1 ≤ (calcBounds pts).2.2.1 ∧ q.2 ≤ (calcBounds pts).2.2.2 := by
  rcases pts with _ | ⟨p, rest⟩
  · simp at h
  · rw [calcBounds]
    rcases List.mem_cons.1 h with rfl | hmem
    · exact foldl_boundsAcc_start rest (q.1, q.2, q.1, q.2)
    · exact foldl_boundsAcc_mem rest (p.1, p.2, p.1, p.2) q hmem

theorem calcBounds_le {pts : List Point} (h : pts ≠ []) :
    (calcBounds pts).1 ≤ (calcBounds pts).2.2.1 ∧
    (calcBounds pts).2.1 ≤ (calcBounds pts).2.2.2 := by
  rcases pts with _ | ⟨p, rest⟩
  · exact absurd rfl h
  · have hm := calcBounds_mem (List.mem_cons_self p rest)
    exact ⟨hm.1.trans hm.2.2.1, hm.2.1.trans hm.2.2.2⟩

theorem cubicPoly_hasDerivAt (A B C D x : ℝ) :
    HasDerivAt (fun t : ℝ => A * t ^ 3 + B * t ^ 2 + C * t + D)
      (3 * A * x ^ 2 + 2 * B * x + C) x := by
  have h := (((hasDerivAt_pow 3 x).const_mul A).add
      ((hasDerivAt_pow 2 x).const_mul B)).add
    (((hasDerivAt_id x).const_mul C).add_const D)
  have hfun : (fun y : ℝ => (A * y ^ 3 + B * y ^ 2) + (C * id y + D)) =
      fun t : ℝ => A * t ^ 3 + B * t ^ 2 + C * t + D := by
    funext y
    simp [id]
    ring
  rw [hfun] at h
  convert h using 1
  push_cast
  ring

theorem cubicPoly_extrema (A B C D : ℝ) :
    ∃ u v, u ∈ Set.Icc (0 : ℝ) 1 ∧ v ∈ Set.Icc (0 : ℝ) 1 ∧
      (∀ t ∈ Set.Icc (0 : ℝ) 1,
        A * v ^ 3 + B * v ^ 2 + C * v + D ≤ A * t ^ 3 + B * t ^ 2 + C * t + D ∧
        A * t ^ 3 + B * t ^ 2 + C * t + D ≤ A * u ^ 3 + B * u ^ 2 + C * u + D) ∧
      (u = 0 ∨ u = 1 ∨ (u ∈ Set.Ioo (0 : ℝ) 1 ∧ 3 * A * u ^ 2 + 2 * B * u + C = 0)) ∧
      (v = 0 ∨ v = 1 ∨ (v ∈ Set.Ioo (0 : ℝ) 1 ∧ 3 * A * v ^ 2 + 2 * B * v + C = 0)) := by
  have hcont : ContinuousOn (fun t : ℝ => A * t ^ 3 + B * t ^ 2 + C * t + D)
      (Set.Icc 0 1) := by
    apply Continuous.continuousOn
    fun_prop
  obtain ⟨u, hu, hmax⟩ := isCompact_Icc.exists_isMaxOn
    (Set.nonempty_Icc.2 (by norm_num)) hcont
  obtain ⟨v, hv, hmin⟩ := isCompact_Icc.exists_isMinOn
    (Set.nonempty_Icc.2 (by norm_num)) hcont
  refine ⟨u, v, hu, hv, fun t ht => ⟨hmin ht, hmax ht⟩, ?_, ?_⟩
  · rcases eq_or_lt_of_le hu.1 with h0 | h0
    · exact Or.inl h0.symm
    rcases eq_or_lt_of_le hu.2 with h1 | h1
    · exact Or.inr (Or.inl h1)
    refine Or.inr (Or.inr ⟨⟨h0, h1⟩, ?_⟩)
    have hloc : IsLocalMax (fun t : ℝ => A * t ^ 3 + B * t ^ 2 + C * t + D) u :=
      hmax.isLocalMax (Icc_mem_nhds h0 h1)
    have hz := hloc.deriv_eq_zero
    rw [(cubicPoly_hasDerivAt A B C D u).deriv] at hz
    exact hz
  · rcases eq_or_lt_of_le hv.1 with h0 | h0
    · exact Or.inl h0.symm
    rcases eq_or_lt_of_le hv.2 with h1 | h1
    · exact Or.inr (Or.inl h1)
    refine Or.inr (Or.inr ⟨⟨h0, h1⟩, ?_⟩)
    have hloc : IsLocalMin (fun t : ℝ => A * t ^ 3 + B * t ^ 2 + C * t + D) v :=
      hmin.isLocalMin (Icc_mem_nhds h0 h1)
    have hz := hloc.deriv_eq_zero
    rw [(cubicPoly_hasDerivAt A B C D v).deriv] at hz
    exact hz

theorem mem_solveQuadratic_of_root {A B C u : ℝ} (hA : epsilon ≤ |A|)
    (hu : A * u ^ 2 + B * u + C = 0) : u ∈ solveQuadratic A B C := by
  have hA0 : A ≠ 0 := by
    intro h
    rw [h, abs_zero] at hA
    exact absurd hA (not_le.2 epsilon_pos)
  have hDD : (2 * A * u + B) ^ 2 = B * B - 4.0 * A * C := by
    linear_combination 4 * A * hu
  have hD : 0 ≤ B * B - 4.0 * A * C := hDD ▸ sq_nonneg _
  have hsq : Real.sqrt (B * B - 4.0 * A * C) ^ 2 = B * B - 4.0 * A * C :=
    Real.sq_sqrt hD
  rw [solveQuadratic, if_neg (not_lt.2 hA), if_pos hD]
  have hfac : (2 * A * u + B - Real.sqrt (B * B - 4.0 * A * C)) *
      (2 * A * u + B + Real.sqrt (B * B - 4.0 * A * C)) = 0 := by
    linear_combination hDD - hsq
  rcases mul_eq_zero.1 hfac with h | h
  · apply List.mem_cons.2
    left
    rw [div_div]
    field_simp
    linarith
  · apply List.mem_cons.2
    right
    apply List.mem_singleton.2
    rw [div_div]
    field_simp
    linarith

theorem mem_solveQuadratic_linear {B C u : ℝ} (hB : epsilon ≤ |B|)
    (hu : B * u + C = 0) : u ∈ solveQuadratic 0 B C := by
  have hB0 : B ≠ 0 := by
    intro h
    rw [h, abs_zero] at hB
    exact absurd hB (not_le.2 epsilon_pos)
  rw [solveQuadratic, if_pos (by rw [abs_zero]; exact epsilon_pos),
    if_neg (not_lt.2 hB)]
  apply List.mem_singleton.2
  field_simp
  linarith

theorem poly_range_bounded (A B C D : ℝ) (good : ℝ → Prop)
    (h0 : good (A * (0 : ℝ) ^ 3 + B * (0 : ℝ) ^ 2 + C * 0 + D))
    (h1 : good (A * (1 : ℝ) ^ 3 + B * (1 : ℝ) ^ 2 + C * 1 + D))
    (hcrit : ∀ u, u ∈ Set.Ioo (0 : ℝ) 1 → 3 * A * u ^ 2 + 2 * B * u + C = 0 →
      good (A * u ^ 3 + B * u ^ 2 + C * u + D)) :
    ∀ t ∈ Set.Icc (0 : ℝ) 1,
      (∃ m, good m ∧ A * t ^ 3 + B * t ^ 2 + C * t + D ≤ m) ∧
      (∃ m, good m ∧ m ≤ A * t ^ 3 + B * t ^ 2 + C * t + D) := by
  obtain ⟨u, v, hu, hv, hbound, hucase, hvcase⟩ := cubicPoly_extrema A B C D
  intro t ht
  constructor
  · refine ⟨A * u ^ 3 + B * u ^ 2 + C * u + D, ?_, (hbound t ht).2⟩
    rcases hucase with rfl | rfl | ⟨huo, hz⟩
    · exact h0
    · exact h1
    · exact hcrit u huo hz
  · refine ⟨A * v ^ 3 + B * v ^ 2 + C * v + D, ?_, (hbound t ht).1⟩
    rcases hvcase with rfl | rfl | ⟨hvo, hz⟩
    · exact h0
    · exact h1
    · exact hcrit v hvo hz

theorem mem_quadBoundsPoints_p1 (p1 p2 p3 : Point) : p1 ∈ quadBoundsPoints p1 p2 p3 := by
  unfold quadBoundsPoints
  exact List.mem_append_right _ (List.mem_cons_self _ _)

theorem mem_quadBoundsPoints_p3 (p1 p2 p3 : Point) : p3 ∈ quadBoundsPoints p1 p2 p3 := by
  unfold quadBoundsPoints
  exact List.mem_append_right _ (List.mem_cons_of_mem _ (List.mem_singleton_self _))

theorem quadBoundsPoints_contain (p1 p2 p3 : Point) (t : ℝ)
    (ht : t ∈ Set.Icc (0 : ℝ) 1) :
    ((∃ q ∈ quadBoundsPoints p1 p2 p3, (quadraticPointAtT p1 p2 p3 t).1 ≤ q.1) ∧
     (∃ q ∈ quadBoundsPoints p1 p2 p3, q.1 ≤ (quadraticPointAtT p1 p2 p3 t).1)) ∧
    ((∃ q ∈ quadBoundsPoints p1 p2 p3, (quadraticPointAtT p1 p2 p3 t).2 ≤ q.2) ∧
     (∃ q ∈ quadBoundsPoints p1 p2 p3, q.2 ≤ (quadraticPointAtT p1 p2 p3 t).2)) := by
  rcases hP : calcQuadraticParameters p1 p2 p3 with ⟨⟨ax, ay⟩, ⟨bx, by1⟩, ⟨cx, cy⟩⟩
  have hPeq := hP
  simp only [calcQuadraticParameters, Prod.mk.injEq] at hPeq
  obtain ⟨⟨hax, hay⟩, ⟨hbx, hby⟩, hcx, hcy⟩ := hPeq
  have hevalx : (quadraticPointAtT p1 p2 p3 t).1 =
      0 * t ^ 3 + ax * t ^ 2 + bx * t + cx := by
    show (1 - t) * (1 - t) * p1.1 + 2 * (1 - t) * t * p2.1 + t * t * p3.1 = _
    rw [← hax, ← hbx, ← hcx]
    ring
  have hevaly : (quadraticPointAtT p1 p2 p3 t).2 =
      0 * t ^ 3 + ay * t ^ 2 + by1 * t + cy := by
    show (1 - t) * (1 - t) * p1.2 + 2 * (1 - t) * t * p2.2 + t * t * p3.2 = _
    rw [← hay, ← hby, ← hcy]
    ring
  have hmemroot : ∀ u : ℝ, u ∈ Set.Ioo (0 : ℝ) 1 →
      (u ∈ (if ax * 2.0 ≠ 0 then [-bx / (ax * 2.0)] else []) ++
        (if ay * 2.0 ≠ 0 then [-by1 / (ay * 2.0)] else [])) →
      (ax * u * u + bx * u + cx, ay * u * u + by1 * u + cy) ∈
        quadBoundsPoints p1 p2 p3 := by
    intro u hu hroots
    unfold quadBoundsPoints
    rw [hP]
    dsimp only
    apply List.mem_append_left
    apply List.mem_map_of_mem
    exact List.mem_filter.2 ⟨hroots, by simpa using ⟨hu.1.le, hu.2⟩⟩
  constructor
  · -- x coordinate
    have hrange := poly_range_bounded 0 ax bx cx
      (fun m => ∃ q ∈ quadBoundsPoints p1 p2 p3, q.1 = m)
      ⟨p1, mem_quadBoundsPoints_p1 p1 p2 p3, by rw [← hcx]; ring⟩
      ⟨p3, mem_quadBoundsPoints_p3 p1 p2 p3, by rw [← hax, ← hbx, ← hcx]; ring⟩
      (by
        intro u hu hz
        by_cases haz : ax = 0
        · have hbz : bx = 0 := by linear_combination hz - 2 * u * haz
          exact ⟨p1, mem_quadBoundsPoints_p1 p1 p2 p3, by
            rw [haz, hbz, ← hcx]; ring⟩
        · have hax2 : ax * 2.0 ≠ 0 := mul_ne_zero haz (by norm_num)
          have hz' : 2 * ax * u + bx = 0 := by linear_combination hz
          have hueq : u = -bx / (ax * 2.0) := by
            field_simp
            linear_combination hz'
          refine ⟨(ax * u * u + bx * u + cx, ay * u * u + by1 * u + cy),
            hmemroot u hu ?_, by dsimp only; ring⟩
          apply List.mem_append_left
          rw [if_pos hax2]
          exact List.mem_singleton.2 hueq)
      t ht
    obtain ⟨⟨m1, ⟨q1, hq1, hq1m⟩, hle1⟩, ⟨m2, ⟨q2, hq2, hq2m⟩, hle2⟩⟩ := hrange
    exact ⟨⟨q1, hq1, by rw [hevalx, hq1m]; exact hle1⟩,
      ⟨q2, hq2, by rw [hevalx, hq2m]; exact hle2⟩⟩
  · -- y coordinate
    have hrange := poly_range_bounded 0 ay by1 cy
      (fun m => ∃ q ∈ quadBoundsPoints p1 p2 p3, q.2 = m)
      ⟨p1, mem_quadBoundsPoints_p1 p1 p2 p3, by rw [← hcy]; ring⟩
      ⟨p3, mem_quadBoundsPoints_p3 p1 p2 p3, by rw [← hay, ← hby, ← hcy]; ring⟩
      (by
        intro u hu hz
        by_cases haz : ay = 0
        · have hbz : by1 = 0 := by linear_combination hz - 2 * u * haz
          exact ⟨p1, mem_quadBoundsPoints_p1 p1 p2 p3, by
            rw [haz, hbz, ← hcy]; ring⟩
        · have hay2 : ay * 2.0 ≠ 0 := mul_ne_zero haz (by norm_num)
          have hz' : 2 * ay * u + by1 = 0 := by linear_combination hz
          have hueq : u = -by1 / (ay * 2.0) := by
            field_simp
            linear_combination hz'
          refine ⟨(ax * u * u + bx * u + cx, ay * u * u + by1 * u + cy),
            hmemroot u hu ?_, by dsimp only; ring⟩
          apply List.mem_append_right
          rw [if_pos hay2]
          exact List.mem_singleton.2 hueq)
      t ht
    obtain ⟨⟨m1, ⟨q1, hq1, hq1m⟩, hle1⟩, ⟨m2, ⟨q2, hq2, hq2m⟩, hle2⟩⟩ := hrange
    exact ⟨⟨q1, hq1, by rw [hevaly, hq1m]; exact hle1⟩,
      ⟨q2, hq2, by rw [hevaly, hq2m]; exact hle2⟩⟩

/-- The amended proviso for the cubic bounding box: the coefficients handed to
`solveQuadratic` for a derivative axis are each either exactly zero or at
least `epsilon` in magnitude (and the quadratic one vanishes only together
with a well-behaved linear one). -/
def derivCoeffOK (A B : ℝ) : Prop :=
  epsilon ≤ |A| ∨ (A = 0 ∧ (B = 0 ∨ epsilon ≤ |B|))

theorem mem_cubicBoundsPoints_p1 (p1 p2 p3 p4 : Point) :
    p1 ∈ cubicBoundsPoints p1 p2 p3 p4 := by
  unfold cubicBoundsPoints
  exact List.mem_append_right _ (List.mem_cons_self _ _)

theorem mem_cubicBoundsPoints_p4 (p1 p2 p3 p4 : Point) :
    p4 ∈ cubicBoundsPoints p1 p2 p3 p4 := by
  unfold cubicBoundsPoints
  exact List.mem_append_right _ (List.mem_cons_of_mem _ (List.mem_singleton_self _))

theorem cubicBoundsPoints_contain (p1 p2 p3 p4 : Point) (t : ℝ)
    (ht : t ∈ Set.Icc (0 : ℝ) 1)
    (hokx : derivCoeffOK ((calcCubicParameters p1 p2 p3 p4).1.1 * 3.0)
      ((calcCubicParameters p1 p2 p3 p4).2.1.1 * 2.0))
    (hoky : derivCoeffOK ((calcCubicParameters p1 p2 p3 p4).1.2 * 3.0)
      ((calcCubicParameters p1 p2 p3 p4).2.1.2 * 2.0)) :
    ((∃ q ∈ cubicBoundsPoints p1 p2 p3 p4, (cubicPointAtT p1 p2 p3 p4 t).1 ≤ q.1) ∧
     (∃ q ∈ cubicBoundsPoints p1 p2 p3 p4, q.1 ≤ (cubicPointAtT p1 p2 p3 p4 t).1)) ∧
    ((∃ q ∈ cubicBoundsPoints p1 p2 p3 p4, (cubicPointAtT p1 p2 p3 p4 t).2 ≤ q.2) ∧
     (∃ q ∈ cubicBoundsPoints p1 p2 p3 p4, q.2 ≤ (cubicPointAtT p1 p2 p3 p4 t).2)) := by
  rcases hP : calcCubicParameters p1 p2 p3 p4 with
    ⟨⟨ax, ay⟩, ⟨bx, by1⟩, ⟨cx, cy⟩, ⟨dx, dy⟩⟩
  rw [hP] at hokx hoky
  dsimp only at hokx hoky
  have hPeq := hP
  simp only [calcCubicParameters, Prod.mk.injEq] at hPeq
  obtain ⟨⟨hax, hay⟩, ⟨hbx, hby⟩, ⟨hcx, hcy⟩, hdx, hdy⟩ := hPeq
  have hevalx : (cubicPointAtT p1 p2 p3 p4 t).1 =
      ax * t ^ 3 + bx * t ^ 2 + cx * t + dx := by
    show (1 - t) * (1 - t) * (1 - t) * p1.1 + 3 * (1 - t) * (1 - t) * t * p2.1 +
        3 * (1 - t) * t * t * p3.1 + t * t * t * p4.1 = _
    rw [← hax, ← hbx, ← hcx, ← hdx]
    ring
  have hevaly : (cubicPointAtT p1 p2 p3 p4 t).2 =
      ay * t ^ 3 + by1 * t ^ 2 + cy * t + dy := by
    show (1 - t) * (1 - t) * (1 - t) * p1.2 + 3 * (1 - t) * (1 - t) * t * p2.2 +
        3 * (1 - t) * t * t * p3.2 + t * t * t * p4.2 = _
    rw [← hay, ← hby, ← hcy, ← hdy]
    ring
  have hmemroot : ∀ u : ℝ,
      (u ∈ (solveQuadratic (ax * 3.0) (bx * 2.0) cx).filter
          (fun t => decide (0 ≤ t ∧ t < 1)) ++
        (solveQuadratic (ay * 3.0) (by1 * 2.0) cy).filter
          (fun t => decide (0 ≤ t ∧ t < 1))) →
      (ax * u * u * u + bx * u * u + cx * u + dx,
        ay * u * u * u + by1 * u * u + cy * u + dy) ∈
        cubicBoundsPoints p1 p2 p3 p4 := by
    intro u hroots
    unfold cubicBoundsPoints
    rw [hP]
    dsimp only
    exact List.mem_append_left _ (List.mem_map_of_mem _ hroots)
  constructor
  · -- x coordinate
    have hrange := poly_range_bounded ax bx cx dx
      (fun m => ∃ q ∈ cubicBoundsPoints p1 p2 p3 p4, q.1 = m)
      ⟨p1, mem_cubicBoundsPoints_p1 p1 p2 p3 p4, by rw [← hdx]; ring⟩
      ⟨p4, mem_cubicBoundsPoints_p4 p1 p2 p3 p4, by
        rw [← hax, ← hbx, ← hcx, ← hdx]; ring⟩
      (by
        intro u hu hz
        rcases hokx with hbig | ⟨h3a0, hbcase⟩
        · have hroot : (ax * 3.0) * u ^ 2 + (bx * 2.0) * u + cx = 0 := by
            linear_combination hz
          refine ⟨_, hmemroot u (List.mem_append_left _ (List.mem_filter.2
            ⟨mem_solveQuadratic_of_root hbig hroot,
             by simpa using ⟨hu.1.le, hu.2⟩⟩)), by dsimp only; ring⟩
        · have hax0 : ax = 0 := by
            rcases mul_eq_zero.1 h3a0 with h | h
            · exact h
            · norm_num at h
          rcases hbcase with h2b0 | hbeps
          · have hbx0 : bx = 0 := by
              rcases mul_eq_zero.1 h2b0 with h | h
              · exact h
              · norm_num at h
            have hcx0 : cx = 0 := by
              linear_combination hz - 3 * u ^ 2 * hax0 - 2 * u * hbx0
            exact ⟨p1, mem_cubicBoundsPoints_p1 p1 p2 p3 p4, by
              rw [hax0, hbx0, hcx0, ← hdx]; ring⟩
          · have hlin : (bx * 2.0) * u + cx = 0 := by
              linear_combination hz - 3 * u ^ 2 * hax0
            refine ⟨_, hmemroot u (List.mem_append_left _ (List.mem_filter.2
              ⟨?_, by simpa using ⟨hu.1.le, hu.2⟩⟩)), by dsimp only; ring⟩
            rw [show ax * 3.0 = (0 : ℝ) from by rw [hax0]; ring]
            exact mem_solveQuadratic_linear hbeps hlin)
      t ht
    obtain ⟨⟨m1, ⟨w1, hw1, hw1m⟩, hle1⟩, ⟨m2, ⟨w2, hw2, hw2m⟩, hle2⟩⟩ := hrange
    exact ⟨⟨w1, hw1, by rw [hevalx, hw1m]; exact hle1⟩,
      ⟨w2, hw2, by rw [hevalx, hw2m]; exact hle2⟩⟩
  · -- y coordinate
    have hrange := poly_range_bounded ay by1 cy dy
      (fun m => ∃ q ∈ cubicBoundsPoints p1 p2 p3 p4, q.2 = m)
      ⟨p1, mem_cubicBoundsPoints_p1 p1 p2 p3 p4, by rw [← hdy]; ring⟩
      ⟨p4, mem_cubicBoundsPoints_p4 p1 p2 p3 p4, by
        rw [← hay, ← hby, ← hcy, ← hdy]; ring⟩
      (by
        intro u hu hz
        rcases hoky with hbig | ⟨h3a0, hbcase⟩
        · have hroot : (ay * 3.0) * u ^ 2 + (by1 * 2.0) * u + cy = 0 := by
            linear_combination hz
          refine ⟨_, hmemroot u (List.mem_append_right _ (List.mem_filter.2
            ⟨mem_solveQuadratic_of_root hbig hroot,
             by simpa using ⟨hu.1.le, hu.2⟩⟩)), by dsimp only; ring⟩
        · have hay0 : ay = 0 := by
            rcases mul_eq_zero.1 h3a0 with h | h
            · exact h
            · norm_num at h
          rcases hbcase with h2b0 | hbeps
          · have hby0 : by1 = 0 := by
              rcases mul_eq_zero.1 h2b0 with h | h
              · exact h
              · norm_num at h
            have hcy0 : cy = 0 := by
              linear_combination hz - 3 * u ^ 2 * hay0 - 2 * u * hby0
            exact ⟨p1, mem_cubicBoundsPoints_p1 p1 p2 p3 p4, by
              rw [hay0, hby0, hcy0, ← hdy]; ring⟩
          · have hlin : (by1 * 2.0) * u + cy = 0 := by
              linear_combination hz - 3 * u ^ 2 * hay0
            refine ⟨_, hmemroot u (List.mem_append_right _ (List.mem_filter.2
              ⟨?_, by simpa using ⟨hu.1.le, hu.2⟩⟩)), by dsimp only; ring⟩
            rw [show ay * 3.0 = (0 : ℝ) from by rw [hay0]; ring]
            exact mem_solveQuadratic_linear hbeps hlin)
      t ht
    obtain ⟨⟨m1, ⟨w1, hw1, hw1m⟩, hle1⟩, ⟨m2, ⟨w2, hw2, hw2m⟩, hle2⟩⟩ := hrange
    exact ⟨⟨w1, hw1, by rw [hevaly, hw1m]; exact hle1⟩,
      ⟨w2, hw2, by rw [hevaly, hw2m]; exact hle2⟩⟩

/-- C5 (amended): both bounds tuples satisfy `xMin ≤ xMax` and `yMin ≤ yMax`,
and contain the point of the segment at every `t ∈ [0, 1]` exactly in real
arithmetic — unconditionally for the quadratic, and for the cubic under the
proviso that each derivative coefficient handed to `solveQuadratic` (`3A` and
`2B`, per axis) is either exactly zero or at least `epsilon = 1e-10` in
magnitude (the counterexample shows the unamended claim fails when `3A` is
tiny but non-zero, because `solveQuadratic` then treats the derivative as
linear). -/
theorem bounds_contain :
    (∀ p1 p2 p3 : Point,
      (calcQuadraticBounds p1 p2 p3).1 ≤ (calcQuadraticBounds p1 p2 p3).2.2.1 ∧
      (calcQuadraticBounds p1 p2 p3).2.1 ≤ (calcQuadraticBounds p1 p2 p3).2.2.2 ∧
      (∀ t : ℝ, 0 ≤ t → t ≤ 1 →
        (calcQuadraticBounds p1 p2 p3).1 ≤ (quadraticPointAtT p1 p2 p3 t).1 ∧
        (quadraticPointAtT p1 p2 p3 t).1 ≤ (calcQuadraticBounds p1 p2 p3).2.2.1 ∧
        (calcQuadraticBounds p1 p2 p3).2.1 ≤ (quadraticPointAtT p1 p2 p3 t).2 ∧
        (quadraticPointAtT p1 p2 p3 t).2 ≤ (calcQuadraticBounds p1 p2 p3).2.2.2)) ∧
    (∀ p1 p2 p3 p4 : Point,
      (calcCubicBounds p1 p2 p3 p4).1 ≤ (calcCubicBounds p1 p2 p3 p4).2.2.1 ∧
      (calcCubicBounds p1 p2 p3 p4).2.1 ≤ (calcCubicBounds p1 p2 p3 p4).2.2.2 ∧
      (derivCoeffOK ((calcCubicParameters p1 p2 p3 p4).1.1 * 3.0)
          ((calcCubicParameters p1 p2 p3 p4).2.1.1 * 2.0) →
        derivCoeffOK ((calcCubicParameters p1 p2 p3 p4).1.2 * 3.0)
          ((calcCubicParameters p1 p2 p3 p4).2.1.2 * 2.0) →
        ∀ t : ℝ, 0 ≤ t → t ≤ 1 →
          (calcCubicBounds p1 p2 p3 p4).1 ≤ (cubicPointAtT p1 p2 p3 p4 t).1 ∧
          (cubicPointAtT p1 p2 p3 p4 t).1 ≤ (calcCubicBounds p1 p2 p3 p4).2.2.1 ∧
          (calcCubicBounds p1 p2 p3 p4).2.1 ≤ (cubicPointAtT p1 p2 p3 p4 t).2 ∧
          (cubicPointAtT p1 p2 p3 p4 t).2 ≤ (calcCubicBounds p1 p2 p3 p4).2.2.2)) := by
  constructor
  · intro p1 p2 p3
    have hle := calcBounds_le (List.ne_nil_of_mem (mem_quadBoundsPoints_p1 p1 p2 p3))
    refine ⟨hle.1, hle.2, ?_⟩
    intro t ht0 ht1
    obtain ⟨⟨⟨qa, hqa, hlea⟩, ⟨qb, hqb, hleb⟩⟩, ⟨qc, hqc, hlec⟩, qd, hqd, hled⟩ :=
      quadBoundsPoints_contain p1 p2 p3 t ⟨ht0, ht1⟩
    exact ⟨(calcBounds_mem hqb).1.trans hleb,
      hlea.trans (calcBounds_mem hqa).2.2.1,
      (calcBounds_mem hqd).2.1.trans hled,
      hlec.trans (calcBounds_mem hqc).2.2.2⟩
  · intro p1 p2 p3 p4
    have hle := calcBounds_le (List.ne_nil_of_mem (mem_cubicBoundsPoints_p1 p1 p2 p3 p4))
    refine ⟨hle.1, hle.2, ?_⟩
    intro hokx hoky t ht0 ht1
    obtain ⟨⟨⟨qa, hqa, hlea⟩, ⟨qb, hqb, hleb⟩⟩, ⟨qc, hqc, hlec⟩, qd, hqd, hled⟩ :=
      cubicBoundsPoints_contain p1 p2 p3 p4 t ⟨ht0, ht1⟩ hokx hoky
    exact ⟨(calcBounds_mem hqb).1.trans hleb,
      hlea.trans (calcBounds_mem hqa).2.2.1,
      (calcBounds_mem hqd).2.1.trans hled,
      hlec.trans (calcBounds_mem hqc).2.2.2⟩

/-- Witness for C5 (amended) on a concrete quadratic and cubic at `t = 1/2`. -/
theorem bounds_contain_witness :
    ((calcQuadraticBounds (0, 0) (1, 1) (2, 0)).1 ≤
        (quadraticPointAtT (0, 0) (1, 1) (2, 0) (1 / 2)).1 ∧
      (quadraticPointAtT (0, 0) (1, 1) (2, 0) (1 / 2)).1 ≤
        (calcQuadraticBounds (0, 0) (1, 1) (2, 0)).2.2.1) ∧
    ((calcCubicBounds (0, 0) (1, 0) (2, 0) (3, 0)).1 ≤
        (cubicPointAtT (0, 0) (1, 0) (2, 0) (3, 0) (1 / 2)).1 ∧
      (cubicPointAtT (0, 0) (1, 0) (2, 0) (3, 0) (1 / 2)).1 ≤
        (calcCubicBounds (0, 0) (1, 0) (2, 0) (3, 0)).2.2.1) := by
  have h1 := (bounds_contain.1 (0, 0) (1, 1) (2, 0)).2.2 (1 / 2)
    (by norm_num) (by norm_num)
  have h2 := (bounds_contain.2 (0, 0) (1, 0) (2, 0) (3, 0)).2.2
    (by norm_num [derivCoeffOK, calcCubicParameters])
    (by norm_num [derivCoeffOK, calcCubicParameters])
    (1 / 2) (by norm_num) (by norm_num)
  exact ⟨⟨h1.1, h1.2.1⟩, h2.1, h2.2.1⟩

/-- Counterexample for C5 as literally stated ("exactly in real arithmetic"):
for the cubic with power-basis x-coefficients `A = 1e-11, B = -1, C = 1,
D = 0` (control points `(0,0), (1/3,0), (1/3,0), (1e-11,0)`), the derivative
leading coefficient `3A = 3e-11` is below `epsilon`, so `solveQuadratic`
treats the derivative as linear and the only interior candidate is `t = 1/2`;
the true maximum lies slightly right of `1/2`, and the segment's point at
`t = 1/2 + 1e-12` exceeds the returned `xMax` in exact real arithmetic. -/
theorem cubicBounds_exact_counterexample :
    ∃ t : ℝ, 0 ≤ t ∧ t ≤ 1 ∧
      (calcCubicBounds (0, 0) (1 / 3, 0) (1 / 3, 0) (1e-11, 0)).2.2.1 <
        (cubicPointAtT (0, 0) (1 / 3, 0) (1 / 3, 0) (1e-11, 0) t).1 := by
  have hparams : calcCubicParameters (0, 0) (1 / 3, 0) (1 / 3, 0) (1e-11, 0) =
      ((1e-11, 0), (-1, 0), (1, 0), (0, 0)) := by
    norm_num [calcCubicParameters, Prod.mk.injEq]
  have habs1 : |(1e-11 : ℝ) * 3.0| < epsilon := by
    rw [abs_of_nonneg (by norm_num)]
    norm_num [epsilon]
  have habs2 : ¬(|(-1 : ℝ) * 2.0| < epsilon) := by
    rw [show (-1 : ℝ) * 2.0 = -2 by norm_num, abs_of_nonpos (by norm_num)]
    norm_num [epsilon]
  have hsq1 : solveQuadratic ((1e-11 : ℝ) * 3.0) ((-1 : ℝ) * 2.0) 1 = [1 / 2] := by
    rw [solveQuadratic, if_pos habs1, if_neg habs2]
    norm_num
  have habs3 : |(0 : ℝ) * 3.0| < epsilon := by
    rw [show (0 : ℝ) * 3.0 = 0 by norm_num, abs_zero]
    exact epsilon_pos
  have habs4 : |(0 : ℝ) * 2.0| < epsilon := by
    rw [show (0 : ℝ) * 2.0 = 0 by norm_num, abs_zero]
    exact epsilon_pos
  have hsq2 : solveQuadratic ((0 : ℝ) * 3.0) ((0 : ℝ) * 2.0) 0 = [] := by
    rw [solveQuadratic, if_pos habs3, if_pos habs4]
  have hpts : cubicBoundsPoints (0, 0) (1 / 3, 0) (1 / 3, 0) (1e-11, 0) =
      [(1 / 4 + 1 / 800000000000, 0), (0, 0), (1e-11, 0)] := by
    unfold cubicBoundsPoints
    rw [hparams]
    dsimp only
    rw [hsq1, hsq2]
    norm_num [List.filter_cons, List.filter_nil, decide_eq_true_eq,
      List.cons.injEq, Prod.mk.injEq]
  have hbounds : calcCubicBounds (0, 0) (1 / 3, 0) (1 / 3, 0) (1e-11, 0) =
      (0, 0, 1 / 4 + 1 / 800000000000, 0) := by
    show calcBounds (cubicBoundsPoints (0, 0) (1 / 3, 0) (1 / 3, 0) (1e-11, 0)) = _
    rw [hpts]
    norm_num [calcBounds, boundsAcc, min_def, max_def, Prod.mk.injEq]
  refine ⟨1 / 2 + 1 / 1000000000000, by norm_num, by norm_num, ?_⟩
  rw [hbounds]
  norm_num [cubicPointAtT]

end BezierTools
